import Mathlib

/-!
Verification development for the startup-researcher pipeline
(`app/services/tools.py`, `app/services/research_agent.py`,
`app/services/agent_tools.py`, `app/services/tracer.py`,
`app/tasks/worker_tasks.py`, `app/api/main.py`,
`app/chat/session_manager.py`).

Python data is embedded as the inductive universe `PyVal` (JSON-shaped
values: None, bool, int, str, list, dict).  Dicts are association lists
over string keys; a well-formed Python dict has unique keys, and the
update operation below rewrites every entry carrying the updated key, so
the model agrees with Python on every dict that actually arises.
External collaborators (the JSON parser of `json.loads`, the LLM, the
web, the vector store, Redis) are parameters of the embedded functions.
Wall-clock timestamps (`time.time()`) are outside the embedding and are
omitted from stored records and published events.
-/

namespace StartupResearcher

/-- Embedded universe of Python/JSON values used by the repository's
normalization, storage and event code. -/
inductive PyVal where
  | none : PyVal
  | bool (b : Bool) : PyVal
  | int (n : Int) : PyVal
  | str (s : String) : PyVal
  | list (xs : List PyVal) : PyVal
  | dict (kvs : List (String × PyVal)) : PyVal

/-- Python truthiness: `None`, `False`, `0`, `""`, `[]`, `{}` are falsy. -/
def truthy : PyVal → Bool
  | .none => false
  | .bool b => b
  | .int n => n != 0
  | .str s => !s.isEmpty
  | .list xs => !xs.isEmpty
  | .dict kvs => !kvs.isEmpty

/-- `d.get(k)` on a dict: value of the first entry with key `k`. -/
def dlookup (kvs : List (String × PyVal)) (k : String) : Option PyVal :=
  (kvs.find? (fun p => p.1 == k)).map Prod.snd

/-- `d.get(k)` collapsing a missing key to Python `None`. -/
def dgetv (kvs : List (String × PyVal)) (k : String) : PyVal :=
  (dlookup kvs k).getD .none

/-- Whether the dict has an entry for `k`. -/
def containsKey (d : List (String × PyVal)) (k : String) : Bool :=
  d.any (fun p => p.1 == k)

/-- Rewrite one entry if it carries key `k`. -/
def updEntry (k : String) (v : PyVal) (p : String × PyVal) : String × PyVal :=
  if p.1 = k then (k, v) else p

/-- `d[k] = v`: update every entry carrying key `k` (a real Python dict
has at most one), else append the new binding at the end. -/
def dset (kvs : List (String × PyVal)) (k : String) (v : PyVal) :
    List (String × PyVal) :=
  if containsKey kvs k then kvs.map (updEntry k v) else kvs ++ [(k, v)]

/-- Python `a or b`: `a` when truthy, else `b`. -/
def pyOr (a b : PyVal) : PyVal := if truthy a then a else b

/-- Decimal digits of `n`, accumulator style; `fuel` bounds the number of
digits still to be produced and any `fuel > n` is enough. -/
def natDigitsCore : Nat → Nat → List Char → List Char
  | 0, _, acc => acc
  | fuel + 1, n, acc =>
    let d := Char.ofNat (n % 10 + 48)
    if n < 10 then d :: acc else natDigitsCore fuel (n / 10) (d :: acc)

/-- Decimal representation of a natural number (Python `str(n)` for `n ≥ 0`). -/
def pyStrNat (n : Nat) : String :=
  String.mk (natDigitsCore (n + 1) n [])

/-- Decimal representation of an integer (Python `str(n)`). -/
def pyStrInt : Int → String
  | .ofNat n => pyStrNat n
  | .negSucc n => "-" ++ pyStrNat (n + 1)

/-- The single-quote character, written via its code point. -/
def quoteChar : Char := Char.ofNat 39

/-- Escape backslashes and single quotes inside a `repr`-rendered string. -/
def pyEscape : List Char → String
  | [] => ""
  | c :: cs =>
    (if c = '\\' then "\\\\"
     else if c = quoteChar then String.mk ['\\', quoteChar]
     else String.mk [c])
      ++ pyEscape cs

/-- A single-quoted, escaped string as CPython `repr` renders it. -/
def pyQuoted (s : String) : String :=
  String.mk [quoteChar] ++ pyEscape s.toList ++ String.mk [quoteChar]

mutual

/-- Python `repr(v)`; strings are single-quoted. -/
def pyRepr : PyVal → String
  | .none => "None"
  | .bool b => if b then "True" else "False"
  | .int n => pyStrInt n
  | .str s => pyQuoted s
  | .list xs => "[" ++ pyReprList xs ++ "]"
  | .dict kvs => "\x7b" ++ pyReprDict kvs ++ "\x7d"
termination_by v => sizeOf v

/-- Comma-separated `repr`s of list elements. -/
def pyReprList : List PyVal → String
  | [] => ""
  | [x] => pyRepr x
  | x :: y :: xs => pyRepr x ++ ", " ++ pyReprList (y :: xs)
termination_by xs => sizeOf xs

/-- Comma-separated `key: value` pairs of a dict. -/
def pyReprDict : List (String × PyVal) → String
  | [] => ""
  | [(k, v)] => pyQuoted k ++ ": " ++ pyRepr v
  | (k, v) :: q :: ps =>
    pyQuoted k ++ ": " ++ pyRepr v ++ ", " ++ pyReprDict (q :: ps)
termination_by ps => sizeOf ps
decreasing_by all_goals (simp; try omega)

end

/-- Python `str(v)`.  For strings it is the identity; containers render
through `repr` of their elements, as in CPython. -/
def pyStr : PyVal → String
  | .none => "None"
  | .bool b => if b then "True" else "False"
  | .int n => pyStrInt n
  | .str s => s
  | .list xs => "[" ++ pyReprList xs ++ "]"
  | .dict kvs => "\x7b" ++ pyReprDict kvs ++ "\x7d"

/-- Python `\s` over the ASCII range (`str.strip` / `re` whitespace). -/
def isPySpace (c : Char) : Bool :=
  c = ' ' || c = '\t' || c = '\n' || c = '\r' || c = '\x0b' || c = '\x0c'

/-- `str.strip()` on a character list. -/
def pyStripList (cs : List Char) : List Char :=
  ((cs.dropWhile isPySpace).reverse.dropWhile isPySpace).reverse

/-- Python `s.strip()`. -/
def pyStrip (s : String) : String :=
  String.mk (pyStripList s.toList)

/-- Index of the last newline in a character list, if any. -/
def lastNLIdx : List Char → Option Nat
  | [] => Option.none
  | c :: cs =>
    match lastNLIdx cs with
    | some i => some (i + 1)
    | Option.none => if c = '\n' then some 0 else Option.none

/-- Length of the match of the `tools.py` splitter regex
`\n\s*\n|\r\n|\n` at the head of the list (alternatives tried left to
right, with the greedy-plus-backtrack semantics of `\s*`), or `none`. -/
def splitMatchLen : List Char → Option Nat
  | '\n' :: rest =>
    (match lastNLIdx (rest.takeWhile isPySpace) with
     | some i => some (i + 2)
     | Option.none => some 1)
  | '\r' :: '\n' :: _ => some 2
  | _ => Option.none

theorem splitMatchLen_pos (cs : List Char) (n : Nat)
    (h : splitMatchLen cs = some n) : 0 < n := by
  unfold splitMatchLen at h
  split at h
  · split at h <;> (injection h with h; omega)
  · injection h with h; omega
  · cases h

/-- `re.split` driver: cut the list at every regex match. -/
def reSplitCore : List Char → List Char → List (List Char)
  | acc, [] => [acc.reverse]
  | acc, c :: cs =>
    match hm : splitMatchLen (c :: cs) with
    | some n => acc.reverse :: reSplitCore [] (List.drop n (c :: cs))
    | Option.none => reSplitCore (c :: acc) cs
termination_by _ cs => cs.length
decreasing_by
  · have := splitMatchLen_pos _ _ hm
    simp; omega
  · simp

/-- `re.split(r"\n\s*\n|\r\n|\n", s)`. -/
def reSplit (s : String) : List String :=
  (reSplitCore [] s.toList).map String.mk

/-- `_ensure_list_of_str` from `app/services/tools.py`: coerce a value to
a list of strings (splitting a multi-line string on newlines). -/
def ensureListOfStr (x : PyVal) : List String :=
  match x with
  | .none => []
  | .list xs => xs.map pyStr
  | .str s =>
    let parts := ((reSplit s).map pyStrip).filter (fun p => !p.isEmpty)
    if parts.length > 1 then parts else [pyStrip s]
  | v => [pyStr v]

/-- Character class `[0-9a-fA-F\-]` of `CHUNK_ID_RE`. -/
def isHexOrDash (c : Char) : Bool :=
  ('0' ≤ c && c ≤ '9') || ('a' ≤ c && c ≤ 'f') || ('A' ≤ c && c ≤ 'F') || c = '-'

/-- Body of `CHUNK_ID_RE = re.compile(r"^chunk-[0-9a-fA-F\-]+$")` without
the end-of-string subtlety. -/
def chunkIdCore : List Char → Bool
  | 'c' :: 'h' :: 'u' :: 'n' :: 'k' :: '-' :: rest =>
    !rest.isEmpty && rest.all isHexOrDash
  | _ => false

/-- `CHUNK_ID_RE.match(s)` as a Boolean: the `$` anchor also matches just
before one trailing newline, as in Python. -/
def chunkIdMatch (s : String) : Bool :=
  chunkIdCore s.toList ||
    (match s.toList.reverse with
     | '\n' :: rest => chunkIdCore rest.reverse
     | _ => false)

mutual

/-- `_flatten` from `_ensure_list_of_dicts_sources`: yield the non-list
atoms of an arbitrarily nested list, and any other value as itself. -/
def pyFlatten : PyVal → List PyVal
  | .list xs => pyFlattenList xs
  | v => [v]
termination_by v => sizeOf v

/-- `_flatten` mapped over the elements of a list. -/
def pyFlattenList : List PyVal → List PyVal
  | [] => []
  | x :: xs => pyFlatten x ++ pyFlattenList xs
termination_by xs => sizeOf xs

end

/-- Whether the first list is a prefix of the second, computably. -/
def listIsPrefixOf : List Char → List Char → Bool
  | [], _ => true
  | _ :: _, [] => false
  | p :: ps, c :: cs => p = c && listIsPrefixOf ps cs

/-- Python `s.startswith(t)`. -/
def pyStartsWith (s t : String) : Bool :=
  listIsPrefixOf t.toList s.toList

/-- Python `s.endswith(t)`. -/
def pyEndsWith (s t : String) : Bool :=
  listIsPrefixOf t.toList.reverse s.toList.reverse

/-- The chunk-id / url / value classification applied to an
already-stripped string in `_ensure_list_of_dicts_sources`. -/
def coerceStr (s : String) : PyVal :=
  if chunkIdMatch s then .dict [("id", .str s)]
  else if pyStartsWith s "http://" || pyStartsWith s "https://" then
    .dict [("url", .str s)]
  else .dict [("value", .str s)]

/-- Per-item coercion of `_ensure_list_of_dicts_sources`; `jp` is the
external `json.loads` collaborator (`none` models a parse failure). -/
def coerceSourceItem (jp : String → Option PyVal) (item : PyVal) : PyVal :=
  match item with
  | .dict kvs => .dict kvs
  | .str s0 =>
    let s := pyStrip s0
    if pyStartsWith s "\x7b" && pyEndsWith s "\x7d" then
      match jp s with
      | some (.dict kvs) => .dict kvs
      | _ => coerceStr s
    else coerceStr s
  | v => .dict [("value", .str (pyStr v))]

/-- `_ensure_list_of_dicts_sources` from `app/services/tools.py`. -/
def ensureListOfDictsSources (jp : String → Option PyVal) (x : PyVal) :
    List PyVal :=
  match x with
  | .none => []
  | v => (pyFlatten v).map (coerceSourceItem jp)

/-- The second, in-place coercion loop at the end of
`normalize_final_report_data` (`final_srcs`). -/
def finalSourceCoerce : PyVal → PyVal
  | .dict kvs => .dict kvs
  | .str s0 =>
    let s2 := pyStrip s0
    if chunkIdMatch s2 then .dict [("id", .str s2)]
    else if pyStartsWith s2 "http://" || pyStartsWith s2 "https://" then
      .dict [("url", .str s2)]
    else .dict [("value", .str s2)]
  | v => .dict [("value", .str (pyStr v))]

/-- Python `"\n".join(xs)`. -/
def joinNL : List String → String
  | [] => ""
  | [s] => s
  | s :: t :: rest => s ++ "\n" ++ joinNL (t :: rest)

/-- The executive-summary coercion: join a list with newlines, then
`str(...)`. -/
def normExecVal (v : PyVal) : String :=
  match v with
  | .list xs => joinNL (xs.map pyStr)
  | w => pyStr w

/-- The wrapping branch of the evidence rule: a list whose first element
is a string has every element wrapped as `{"excerpt": element}`;
any other list passes through; a non-list becomes `[]`. -/
def normEvidence (ev : PyVal) : PyVal :=
  match ev with
  | .list (x :: xs) =>
    (match x with
     | .str _ => .list ((x :: xs).map (fun s => .dict [("excerpt", s)]))
     | _ => .list (x :: xs))
  | .list [] => .list []
  | _ => .list []

/-- `normalize_final_report_data` from `app/services/tools.py`, on a
dict-shaped input (`dict(data or {})` is the identity there).  `jp` is
the `json.loads` collaborator. -/
def normalizeFinalReportData (jp : String → Option PyVal)
    (data : List (String × PyVal)) : List (String × PyVal) :=
  let d1 := dset data "title"
    (.str (pyStr (pyOr (dgetv data "title")
      (pyOr (dgetv data "name") (.str "Untitled Report")))))
  let d2 := dset d1 "executive_summary"
    (.str (normExecVal (pyOr (dgetv d1 "executive_summary")
      (pyOr (dgetv d1 "summary") (.str "")))))
  let d3 := dset d2 "key_insights"
    (.list ((ensureListOfStr (pyOr (dgetv d2 "key_insights")
      (pyOr (dgetv d2 "insights") (.str "")))).map .str))
  let d4 := dset d3 "recommendations"
    (.list ((ensureListOfStr (pyOr (dgetv d3 "recommendations")
      (pyOr (dgetv d3 "next_steps") (.str "")))).map .str))
  let d5 := dset d4 "evidence"
    (normEvidence (pyOr (dgetv d4 "evidence") (.list [])))
  let srcs := ensureListOfDictsSources jp
    (pyOr (dgetv d5 "sources") (pyOr (dgetv d5 "references") (.list [])))
  let d6 := dset d5 "sources" (.list srcs)
  dset d6 "sources" (.list (srcs.map finalSourceCoerce))

/-! ### Association-list (Python dict) lemmas -/

/-- Every entry of the dict carrying key `k` holds value `v`. -/
def AllVal (d : List (String × PyVal)) (k : String) (v : PyVal) : Prop :=
  ∀ p ∈ d, p.1 = k → p.2 = v

theorem dlookup_nil (k : String) : dlookup [] k = Option.none := rfl

theorem dlookup_cons (p : String × PyVal) (ps : List (String × PyVal))
    (k : String) :
    dlookup (p :: ps) k = if p.1 = k then some p.2 else dlookup ps k := by
  by_cases h : p.1 = k
  · simp [dlookup, List.find?, h]
  · have hb : (p.1 == k) = false := by simp [h]
    simp [dlookup, List.find?, hb, h]

theorem containsKey_nil (k : String) : containsKey [] k = false := rfl

theorem containsKey_cons (p : String × PyVal) (ps : List (String × PyVal))
    (k : String) :
    containsKey (p :: ps) k = ((p.1 == k) || containsKey ps k) := by
  simp [containsKey]

theorem dlookup_map_upd_self (d : List (String × PyVal)) (k : String)
    (v : PyVal) (h : containsKey d k = true) :
    dlookup (d.map (updEntry k v)) k = some v := by
  induction d with
  | nil => simp [containsKey] at h
  | cons p ps ih =>
    by_cases hp : p.1 = k
    · simp [List.map_cons, dlookup_cons, updEntry, hp]
    · have hb : (p.1 == k) = false := by simp [hp]
      rw [containsKey_cons, hb, Bool.false_or] at h
      rw [List.map_cons, dlookup_cons]
      rw [updEntry, if_neg hp]
      rw [if_neg hp]
      exact ih h

theorem dlookup_map_upd_ne (d : List (String × PyVal)) (k k2 : String)
    (v : PyVal) (h : ¬k = k2) :
    dlookup (d.map (updEntry k v)) k2 = dlookup d k2 := by
  induction d with
  | nil => simp
  | cons p ps ih =>
    by_cases hp : p.1 = k
    · have hpk2 : ¬p.1 = k2 := by rw [hp]; exact h
      simp only [List.map_cons, updEntry, if_pos hp, dlookup_cons]
      rw [if_neg h, if_neg hpk2, ih]
    · simp only [List.map_cons, updEntry, if_neg hp, dlookup_cons]
      by_cases hq : p.1 = k2
      · rw [if_pos hq, if_pos hq]
      · rw [if_neg hq, if_neg hq, ih]

theorem dlookup_eq_none_of_not_contains (d : List (String × PyVal))
    (k : String) (h : containsKey d k = false) :
    dlookup d k = Option.none := by
  induction d with
  | nil => rfl
  | cons p ps ih =>
    rw [containsKey_cons] at h
    simp only [Bool.or_eq_false_iff] at h
    rw [dlookup_cons, if_neg (by simpa using h.1)]
    exact ih h.2

theorem dlookup_append (d1 d2 : List (String × PyVal)) (k : String) :
    dlookup (d1 ++ d2) k =
      (match dlookup d1 k with
       | some v => some v
       | Option.none => dlookup d2 k) := by
  induction d1 with
  | nil => simp [dlookup_nil]
  | cons p ps ih =>
    by_cases hp : p.1 = k
    · simp [dlookup_cons, hp]
    · simp [dlookup_cons, hp, ih]

theorem dlookup_dset_self (d : List (String × PyVal)) (k : String) (v : PyVal) :
    dlookup (dset d k v) k = some v := by
  unfold dset
  by_cases h : containsKey d k
  · rw [if_pos h]; exact dlookup_map_upd_self d k v h
  · rw [if_neg h, dlookup_append,
      dlookup_eq_none_of_not_contains d k (by simpa using h)]
    simp [dlookup_cons]

theorem dlookup_dset_ne (d : List (String × PyVal)) (k k2 : String) (v : PyVal)
    (h : ¬k = k2) : dlookup (dset d k v) k2 = dlookup d k2 := by
  unfold dset
  by_cases hc : containsKey d k
  · rw [if_pos hc]; exact dlookup_map_upd_ne d k k2 v h
  · rw [if_neg hc, dlookup_append]
    cases hl : dlookup d k2 with
    | some w => rfl
    | none => simp [dlookup_cons, dlookup_nil, h]

theorem dgetv_dset_self (d : List (String × PyVal)) (k : String) (v : PyVal) :
    dgetv (dset d k v) k = v := by
  simp [dgetv, dlookup_dset_self]

theorem dgetv_dset_ne (d : List (String × PyVal)) (k k2 : String) (v : PyVal)
    (h : ¬k = k2) : dgetv (dset d k v) k2 = dgetv d k2 := by
  simp [dgetv, dlookup_dset_ne _ _ _ _ h]

theorem allVal_dset_self (d : List (String × PyVal)) (k : String) (v : PyVal) :
    AllVal (dset d k v) k v := by
  unfold dset
  by_cases hc : containsKey d k
  · rw [if_pos hc]
    intro p hp hk
    obtain ⟨q, hq, hmap⟩ := List.mem_map.mp hp
    by_cases h : q.1 = k
    · rw [updEntry, if_pos h] at hmap; rw [← hmap]
    · rw [updEntry, if_neg h] at hmap; subst hmap; exact absurd hk h
  · rw [if_neg hc]
    intro p hp hk
    rcases List.mem_append.mp hp with h1 | h1
    · exfalso
      apply hc
      exact List.any_eq_true.mpr ⟨p, h1, by simpa using hk⟩
    · simp at h1; rw [h1]

theorem allVal_dset_other (d : List (String × PyVal)) (k k2 : String)
    (v w : PyVal) (hne : ¬k = k2) (h : AllVal d k v) :
    AllVal (dset d k2 w) k v := by
  unfold dset
  by_cases hc : containsKey d k2
  · rw [if_pos hc]
    intro p hp hk
    obtain ⟨q, hq, hmap⟩ := List.mem_map.mp hp
    by_cases hq2 : q.1 = k2
    · rw [updEntry, if_pos hq2] at hmap
      exfalso
      apply hne
      rw [← hmap] at hk
      exact hk.symm
    · rw [updEntry, if_neg hq2] at hmap; subst hmap; exact h q hq hk
  · rw [if_neg hc]
    intro p hp hk
    rcases List.mem_append.mp hp with h1 | h1
    · exact h p h1 hk
    · simp at h1
      subst h1
      simp at hk
      exact absurd hk.symm hne

theorem containsKey_dset_self (d : List (String × PyVal)) (k : String)
    (v : PyVal) : containsKey (dset d k v) k = true := by
  unfold dset
  by_cases hc : containsKey d k
  · rw [if_pos hc]
    obtain ⟨p, hp, hb⟩ := List.any_eq_true.mp hc
    refine List.any_eq_true.mpr ⟨updEntry k v p, List.mem_map.mpr ⟨p, hp, rfl⟩, ?_⟩
    rw [updEntry, if_pos (by simpa using hb)]
    simp
  · rw [if_neg hc]
    exact List.any_eq_true.mpr ⟨(k, v), by simp, by simp⟩

theorem containsKey_dset_other (d : List (String × PyVal)) (k k2 : String)
    (v : PyVal) (h : containsKey d k = true) :
    containsKey (dset d k2 v) k = true := by
  obtain ⟨p, hp, hb⟩ := List.any_eq_true.mp h
  unfold dset
  by_cases hc : containsKey d k2
  · rw [if_pos hc]
    by_cases hq : p.1 = k2
    · refine List.any_eq_true.mpr ⟨updEntry k2 v p, List.mem_map.mpr ⟨p, hp, rfl⟩, ?_⟩
      rw [updEntry, if_pos hq]
      simp only [beq_iff_eq] at hb ⊢
      rw [← hq, hb]
    · refine List.any_eq_true.mpr ⟨updEntry k2 v p, List.mem_map.mpr ⟨p, hp, rfl⟩, ?_⟩
      rw [updEntry, if_neg hq]
      exact hb
  · rw [if_neg hc]
    exact List.any_eq_true.mpr ⟨p, List.mem_append.mpr (Or.inl hp), hb⟩

theorem dset_eq_self (d : List (String × PyVal)) (k : String) (v : PyVal)
    (h1 : containsKey d k = true) (h2 : AllVal d k v) : dset d k v = d := by
  unfold dset
  rw [if_pos h1]
  have : ∀ p ∈ d, updEntry k v p = p := by
    intro p hp
    by_cases hk : p.1 = k
    · have hv := h2 p hp hk
      rw [updEntry, if_pos hk]
      cases p with
      | mk a b =>
        simp only at hk hv
        rw [hk, hv]
    · rw [updEntry, if_neg hk]
  calc d.map (updEntry k v) = d.map id := List.map_congr_left this
    _ = d := List.map_id d

/-! ### Emptiness facts about `str(...)` -/

theorem natDigitsCore_length_le (fuel : Nat) : ∀ (n : Nat) (acc : List Char),
    acc.length ≤ (natDigitsCore fuel n acc).length := by
  induction fuel with
  | zero => intro n acc; simp [natDigitsCore]
  | succ m ih =>
    intro n acc
    rw [natDigitsCore]
    by_cases h : n < 10
    · simp [h]
    · simp only [h, if_false]
      calc acc.length ≤ (Char.ofNat (n % 10 + 48) :: acc).length := by simp
        _ ≤ _ := ih (n / 10) _

theorem natDigitsCore_length_pos (fuel n : Nat) (acc : List Char)
    (h : 0 < fuel) : acc.length < (natDigitsCore fuel n acc).length := by
  cases fuel with
  | zero => omega
  | succ m =>
    rw [natDigitsCore]
    by_cases hn : n < 10
    · simp [hn]
    · simp only [hn, if_false]
      calc acc.length < (Char.ofNat (n % 10 + 48) :: acc).length := by simp
        _ ≤ _ := natDigitsCore_length_le m (n / 10) _

theorem pyStrNat_ne_empty (n : Nat) : pyStrNat n ≠ "" := by
  intro h
  have hd := congrArg String.data h
  have hlen : (natDigitsCore (n + 1) n []).length = 0 := by
    rw [pyStrNat] at hd
    simp at hd
    rw [hd]
    rfl
  have := natDigitsCore_length_pos (n + 1) n [] (by omega)
  simp [hlen] at this

theorem pyStrInt_ne_empty (n : Int) : pyStrInt n ≠ "" := by
  cases n with
  | ofNat m => exact pyStrNat_ne_empty m
  | negSucc m =>
    intro h
    rw [pyStrInt] at h
    have := congrArg String.length h
    rw [String.length_append] at this
    simp at this
    exact absurd this.1 (by decide)

theorem bracket_ne_empty (a m b : String) (ha : a.length = 1)
    (hb : b.length = 1) : a ++ m ++ b ≠ "" := by
  intro h
  have := congrArg String.length h
  rw [String.length_append, String.length_append] at this
  simp [ha, hb] at this

theorem pyStr_empty_iff (v : PyVal) : pyStr v = "" ↔ v = .str "" := by
  cases v with
  | none =>
    constructor
    · intro h; exact absurd h (by decide)
    · intro h; cases h
  | bool b =>
    constructor
    · intro h; cases b <;> exact absurd h (by decide)
    · intro h; cases h
  | int n =>
    constructor
    · intro h; exact absurd h (pyStrInt_ne_empty n)
    · intro h; cases h
  | str s => simp [pyStr]
  | list xs =>
    constructor
    · intro h; exact absurd h (bracket_ne_empty _ _ _ rfl rfl)
    · intro h; cases h
  | dict kvs =>
    constructor
    · intro h; exact absurd h (bracket_ne_empty _ _ _ rfl rfl)
    · intro h; cases h

theorem pyStr_ne_empty_of_truthy (v : PyVal) (h : truthy v = true) :
    pyStr v ≠ "" := by
  intro he
  rw [pyStr_empty_iff] at he
  subst he
  exact absurd h (by decide)

/-! ### Facts about `"\n".join`, the executive-summary coercion, and
`_ensure_list_of_str` -/

theorem joinNL_eq_empty (l : List String) (hne : l ≠ []) (h : joinNL l = "") :
    l = [""] := by
  match l with
  | [] => exact absurd rfl hne
  | [s] => rw [joinNL] at h; rw [h]
  | s :: t :: rest =>
    exfalso
    rw [joinNL] at h
    have := congrArg String.length h
    rw [String.length_append, String.length_append] at this
    simp at this
    exact absurd this.1.2 (by decide)

theorem normExecVal_str (s : String) : normExecVal (.str s) = s := rfl

theorem normExecVal_empty_of_truthy (v : PyVal) (ht : truthy v = true)
    (h : normExecVal v = "") : v = .list [.str ""] := by
  cases v with
  | list xs =>
    rw [normExecVal] at h
    have hxs : xs ≠ [] := by
      intro hx; subst hx; simp [truthy] at ht
    have hmap : xs.map pyStr = [""] :=
      joinNL_eq_empty _ (by simpa using hxs) h
    cases xs with
    | nil => exact absurd rfl hxs
    | cons x rest =>
      cases rest with
      | nil =>
        simp at hmap
        rw [pyStr_empty_iff] at hmap
        rw [hmap]
      | cons y r2 => simp at hmap
  | none => simp [truthy] at ht
  | bool b =>
    exfalso
    cases b
    · simp [truthy] at ht
    · exact absurd h (by decide)
  | int n => exact absurd h (pyStrInt_ne_empty n)
  | str s =>
    exfalso
    rw [normExecVal_str] at h
    subst h
    exact absurd ht (by decide)
  | dict kvs => exact absurd h (bracket_ne_empty _ _ _ rfl rfl)

theorem ensureListOfStr_str_ne_nil (s : String) :
    ensureListOfStr (.str s) ≠ [] := by
  intro h
  simp only [ensureListOfStr] at h
  split at h
  · rename_i hgt
    rw [h] at hgt
    simp at hgt
  · simp at h

theorem ensureListOfStr_ne_nil (v : PyVal) (h : truthy v = true) :
    ensureListOfStr v ≠ [] := by
  cases v with
  | none => simp [truthy] at h
  | bool b => simp [ensureListOfStr]
  | int n => simp [ensureListOfStr]
  | str s => exact ensureListOfStr_str_ne_nil s
  | list xs =>
    have : xs ≠ [] := by intro hx; subst hx; simp [truthy] at h
    simp [ensureListOfStr, this]
  | dict kvs => simp [ensureListOfStr]

theorem ensureListOfStr_map_str (l : List String) :
    ensureListOfStr (.list (l.map .str)) = l := by
  rw [ensureListOfStr, List.map_map]
  have : (pyStr ∘ PyVal.str) = id := by
    funext s; simp [pyStr]
  rw [this, List.map_id]

/-! ### Sources coercion lemmas -/

/-- Whether a value is a Python dict. -/
def isDictB : PyVal → Bool
  | .dict _ => true
  | _ => false

theorem pyOr_pos (a b : PyVal) (h : truthy a = true) : pyOr a b = a := by
  rw [pyOr, if_pos h]

theorem pyOr_neg (a b : PyVal) (h : truthy a = false) : pyOr a b = b := by
  rw [pyOr, if_neg (by simp [h])]

theorem coerceStr_isDict (s : String) : isDictB (coerceStr s) = true := by
  rw [coerceStr]
  split
  · rfl
  · split <;> rfl

theorem coerceSourceItem_dict (jp : String → Option PyVal)
    (kvs : List (String × PyVal)) :
    coerceSourceItem jp (.dict kvs) = .dict kvs := rfl

theorem coerceSourceItem_isDict (jp : String → Option PyVal) (x : PyVal) :
    isDictB (coerceSourceItem jp x) = true := by
  cases x with
  | dict kvs => rfl
  | str s =>
    rw [coerceSourceItem]
    split
    · split
      · rfl
      · exact coerceStr_isDict _
    · exact coerceStr_isDict _
  | none => rfl
  | bool b => rfl
  | int n => rfl
  | list xs => rfl

theorem finalSourceCoerce_dict (kvs : List (String × PyVal)) :
    finalSourceCoerce (.dict kvs) = .dict kvs := rfl

theorem finalSourceCoerce_isDict (x : PyVal) :
    isDictB (finalSourceCoerce x) = true := by
  cases x with
  | dict kvs => rfl
  | str s =>
    rw [finalSourceCoerce]
    split
    · rfl
    · split <;> rfl
  | none => rfl
  | bool b => rfl
  | int n => rfl
  | list xs => rfl

theorem pyFlatten_atom (x : PyVal) (h : ∀ ys, x ≠ PyVal.list ys) :
    pyFlatten x = [x] := by
  cases x with
  | list ys => exact absurd rfl (h ys)
  | none => simp [pyFlatten]
  | bool b => simp [pyFlatten]
  | int n => simp [pyFlatten]
  | str s => simp [pyFlatten]
  | dict kvs => simp [pyFlatten]

theorem pyFlatten_list (xs : List PyVal) :
    pyFlatten (.list xs) = pyFlattenList xs := by
  rw [pyFlatten]

theorem pyFlattenList_nil : pyFlattenList [] = [] := by
  rw [pyFlattenList]

theorem pyFlattenList_cons (x : PyVal) (xs : List PyVal) :
    pyFlattenList (x :: xs) = pyFlatten x ++ pyFlattenList xs := by
  rw [pyFlattenList]

theorem pyFlattenList_of_dicts (xs : List PyVal)
    (h : ∀ x ∈ xs, isDictB x = true) : pyFlattenList xs = xs := by
  induction xs with
  | nil => exact pyFlattenList_nil
  | cons x rest ih =>
    rw [pyFlattenList_cons]
    have hx := h x (by simp)
    have hxd : pyFlatten x = [x] := by
      apply pyFlatten_atom
      intro ys hys
      rw [hys] at hx
      simp [isDictB] at hx
    rw [hxd, ih (fun y hy => h y (by simp [hy]))]
    rfl

theorem ensureListOfDictsSources_not_none (jp : String → Option PyVal)
    (x : PyVal) (h : x ≠ PyVal.none) :
    ensureListOfDictsSources jp x = (pyFlatten x).map (coerceSourceItem jp) := by
  cases x with
  | none => exact absurd rfl h
  | bool b => rfl
  | int n => rfl
  | str s => rfl
  | list xs => rfl
  | dict kvs => rfl

theorem ensureListOfDictsSources_of_dicts (jp : String → Option PyVal)
    (xs : List PyVal) (h : ∀ x ∈ xs, isDictB x = true) :
    ensureListOfDictsSources jp (.list xs) = xs := by
  rw [ensureListOfDictsSources_not_none jp _ (by intro hx; cases hx),
    pyFlatten_list, pyFlattenList_of_dicts xs h]
  calc xs.map (coerceSourceItem jp) = xs.map id := by
        apply List.map_congr_left
        intro x hx
        have := h x hx
        cases x <;> simp [isDictB] at this <;> rfl
    _ = xs := List.map_id xs

theorem ensureListOfDictsSources_mem_isDict (jp : String → Option PyVal)
    (x : PyVal) : ∀ v ∈ ensureListOfDictsSources jp x, isDictB v = true := by
  intro v hv
  by_cases hx : x = PyVal.none
  · subst hx
    simp [ensureListOfDictsSources] at hv
  · rw [ensureListOfDictsSources_not_none jp x hx] at hv
    obtain ⟨w, _, rfl⟩ := List.mem_map.mp hv
    exact coerceSourceItem_isDict jp w

theorem ensureListOfDictsSources_eq_nil_iff (jp : String → Option PyVal)
    (x : PyVal) :
    ensureListOfDictsSources jp x = [] ↔ x = .none ∨ pyFlatten x = [] := by
  by_cases hx : x = PyVal.none
  · subst hx
    simp [ensureListOfDictsSources]
  · rw [ensureListOfDictsSources_not_none jp x hx]
    simp [hx]

theorem normEvidence_idem (v : PyVal) :
    normEvidence (normEvidence v) = normEvidence v := by
  cases v with
  | list xs =>
    cases xs with
    | nil => rfl
    | cons x rest =>
      cases x with
      | str s => simp [normEvidence]
      | none => simp [normEvidence]
      | bool b => simp [normEvidence]
      | int n => simp [normEvidence]
      | list ys => simp [normEvidence]
      | dict kvs => simp [normEvidence]
  | none => rfl
  | bool b => rfl
  | int n => rfl
  | str s => rfl
  | dict kvs => rfl

/-! ### Closed form of `normalize_final_report_data` -/

/-- The string stored under `title` by the normalizer. -/
def titleVal (d : List (String × PyVal)) : String :=
  pyStr (pyOr (dgetv d "title") (pyOr (dgetv d "name") (.str "Untitled Report")))

/-- The string stored under `executive_summary` by the normalizer. -/
def execVal (d : List (String × PyVal)) : String :=
  normExecVal (pyOr (dgetv d "executive_summary")
    (pyOr (dgetv d "summary") (.str "")))

/-- The string list stored under `key_insights` by the normalizer. -/
def insightsVal (d : List (String × PyVal)) : List String :=
  ensureListOfStr (pyOr (dgetv d "key_insights")
    (pyOr (dgetv d "insights") (.str "")))

/-- The string list stored under `recommendations` by the normalizer. -/
def recsVal (d : List (String × PyVal)) : List String :=
  ensureListOfStr (pyOr (dgetv d "recommendations")
    (pyOr (dgetv d "next_steps") (.str "")))

/-- The value stored under `evidence` by the normalizer. -/
def evidenceVal (d : List (String × PyVal)) : PyVal :=
  normEvidence (pyOr (dgetv d "evidence") (.list []))

/-- The sources list after `_ensure_list_of_dicts_sources`. -/
def sourcesRaw (jp : String → Option PyVal) (d : List (String × PyVal)) :
    List PyVal :=
  ensureListOfDictsSources jp
    (pyOr (dgetv d "sources") (pyOr (dgetv d "references") (.list [])))

/-- The sources list finally stored by the normalizer. -/
def sourcesVal (jp : String → Option PyVal) (d : List (String × PyVal)) :
    List PyVal :=
  (sourcesRaw jp d).map finalSourceCoerce

theorem normalize_eq (jp : String → Option PyVal)
    (d : List (String × PyVal)) :
    normalizeFinalReportData jp d =
      dset (dset (dset (dset (dset (dset (dset d
        "title" (.str (titleVal d)))
        "executive_summary" (.str (execVal d)))
        "key_insights" (.list ((insightsVal d).map .str)))
        "recommendations" (.list ((recsVal d).map .str)))
        "evidence" (evidenceVal d))
        "sources" (.list (sourcesRaw jp d)))
        "sources" (.list (sourcesVal jp d)) := by
  rw [normalizeFinalReportData, titleVal, execVal, insightsVal, recsVal,
    evidenceVal, sourcesVal, sourcesRaw]
  simp only [dgetv_dset_ne _ _ _ _ (by decide : ¬"title" = "executive_summary"),
    dgetv_dset_ne _ _ _ _ (by decide : ¬"title" = "summary"),
    dgetv_dset_ne _ _ _ _ (by decide : ¬"title" = "key_insights"),
    dgetv_dset_ne _ _ _ _ (by decide : ¬"title" = "insights"),
    dgetv_dset_ne _ _ _ _ (by decide : ¬"title" = "recommendations"),
    dgetv_dset_ne _ _ _ _ (by decide : ¬"title" = "next_steps"),
    dgetv_dset_ne _ _ _ _ (by decide : ¬"title" = "evidence"),
    dgetv_dset_ne _ _ _ _ (by decide : ¬"title" = "sources"),
    dgetv_dset_ne _ _ _ _ (by decide : ¬"title" = "references"),
    dgetv_dset_ne _ _ _ _ (by decide : ¬"executive_summary" = "key_insights"),
    dgetv_dset_ne _ _ _ _ (by decide : ¬"executive_summary" = "insights"),
    dgetv_dset_ne _ _ _ _ (by decide : ¬"executive_summary" = "recommendations"),
    dgetv_dset_ne _ _ _ _ (by decide : ¬"executive_summary" = "next_steps"),
    dgetv_dset_ne _ _ _ _ (by decide : ¬"executive_summary" = "evidence"),
    dgetv_dset_ne _ _ _ _ (by decide : ¬"executive_summary" = "sources"),
    dgetv_dset_ne _ _ _ _ (by decide : ¬"executive_summary" = "references"),
    dgetv_dset_ne _ _ _ _ (by decide : ¬"key_insights" = "recommendations"),
    dgetv_dset_ne _ _ _ _ (by decide : ¬"key_insights" = "next_steps"),
    dgetv_dset_ne _ _ _ _ (by decide : ¬"key_insights" = "evidence"),
    dgetv_dset_ne _ _ _ _ (by decide : ¬"key_insights" = "sources"),
    dgetv_dset_ne _ _ _ _ (by decide : ¬"key_insights" = "references"),
    dgetv_dset_ne _ _ _ _ (by decide : ¬"recommendations" = "evidence"),
    dgetv_dset_ne _ _ _ _ (by decide : ¬"recommendations" = "sources"),
    dgetv_dset_ne _ _ _ _ (by decide : ¬"recommendations" = "references"),
    dgetv_dset_ne _ _ _ _ (by decide : ¬"evidence" = "sources"),
    dgetv_dset_ne _ _ _ _ (by decide : ¬"evidence" = "references")]

theorem dlookup_normalize_title (jp : String → Option PyVal)
    (d : List (String × PyVal)) :
    dlookup (normalizeFinalReportData jp d) "title" =
      some (.str (titleVal d)) := by
  rw [normalize_eq,
    dlookup_dset_ne _ _ _ _ (by decide : ¬"sources" = "title"),
    dlookup_dset_ne _ _ _ _ (by decide : ¬"sources" = "title"),
    dlookup_dset_ne _ _ _ _ (by decide : ¬"evidence" = "title"),
    dlookup_dset_ne _ _ _ _ (by decide : ¬"recommendations" = "title"),
    dlookup_dset_ne _ _ _ _ (by decide : ¬"key_insights" = "title"),
    dlookup_dset_ne _ _ _ _ (by decide : ¬"executive_summary" = "title"),
    dlookup_dset_self]

theorem dlookup_normalize_exec (jp : String → Option PyVal)
    (d : List (String × PyVal)) :
    dlookup (normalizeFinalReportData jp d) "executive_summary" =
      some (.str (execVal d)) := by
  rw [normalize_eq,
    dlookup_dset_ne _ _ _ _ (by decide : ¬"sources" = "executive_summary"),
    dlookup_dset_ne _ _ _ _ (by decide : ¬"sources" = "executive_summary"),
    dlookup_dset_ne _ _ _ _ (by decide : ¬"evidence" = "executive_summary"),
    dlookup_dset_ne _ _ _ _ (by decide : ¬"recommendations" = "executive_summary"),
    dlookup_dset_ne _ _ _ _ (by decide : ¬"key_insights" = "executive_summary"),
    dlookup_dset_self]

theorem dlookup_normalize_insights (jp : String → Option PyVal)
    (d : List (String × PyVal)) :
    dlookup (normalizeFinalReportData jp d) "key_insights" =
      some (.list ((insightsVal d).map .str)) := by
  rw [normalize_eq,
    dlookup_dset_ne _ _ _ _ (by decide : ¬"sources" = "key_insights"),
    dlookup_dset_ne _ _ _ _ (by decide : ¬"sources" = "key_insights"),
    dlookup_dset_ne _ _ _ _ (by decide : ¬"evidence" = "key_insights"),
    dlookup_dset_ne _ _ _ _ (by decide : ¬"recommendations" = "key_insights"),
    dlookup_dset_self]

theorem dlookup_normalize_recs (jp : String → Option PyVal)
    (d : List (String × PyVal)) :
    dlookup (normalizeFinalReportData jp d) "recommendations" =
      some (.list ((recsVal d).map .str)) := by
  rw [normalize_eq,
    dlookup_dset_ne _ _ _ _ (by decide : ¬"sources" = "recommendations"),
    dlookup_dset_ne _ _ _ _ (by decide : ¬"sources" = "recommendations"),
    dlookup_dset_ne _ _ _ _ (by decide : ¬"evidence" = "recommendations"),
    dlookup_dset_self]

theorem dlookup_normalize_evidence (jp : String → Option PyVal)
    (d : List (String × PyVal)) :
    dlookup (normalizeFinalReportData jp d) "evidence" =
      some (evidenceVal d) := by
  rw [normalize_eq,
    dlookup_dset_ne _ _ _ _ (by decide : ¬"sources" = "evidence"),
    dlookup_dset_ne _ _ _ _ (by decide : ¬"sources" = "evidence"),
    dlookup_dset_self]

theorem dlookup_normalize_sources (jp : String → Option PyVal)
    (d : List (String × PyVal)) :
    dlookup (normalizeFinalReportData jp d) "sources" =
      some (.list (sourcesVal jp d)) := by
  rw [normalize_eq, dlookup_dset_self]

theorem dlookup_normalize_other (jp : String → Option PyVal)
    (d : List (String × PyVal)) (k : String)
    (h1 : ¬"title" = k) (h2 : ¬"executive_summary" = k)
    (h3 : ¬"key_insights" = k) (h4 : ¬"recommendations" = k)
    (h5 : ¬"evidence" = k) (h6 : ¬"sources" = k) :
    dlookup (normalizeFinalReportData jp d) k = dlookup d k := by
  rw [normalize_eq,
    dlookup_dset_ne _ _ _ _ h6, dlookup_dset_ne _ _ _ _ h6,
    dlookup_dset_ne _ _ _ _ h5, dlookup_dset_ne _ _ _ _ h4,
    dlookup_dset_ne _ _ _ _ h3, dlookup_dset_ne _ _ _ _ h2,
    dlookup_dset_ne _ _ _ _ h1]

theorem normEvidence_is_list (v : PyVal) : ∃ xs, normEvidence v = .list xs := by
  cases v with
  | list xs =>
    cases xs with
    | nil => exact ⟨[], rfl⟩
    | cons x rest =>
      cases x with
      | str s => exact ⟨_, rfl⟩
      | none => exact ⟨_, rfl⟩
      | bool b => exact ⟨_, rfl⟩
      | int n => exact ⟨_, rfl⟩
      | list ys => exact ⟨_, rfl⟩
      | dict kvs => exact ⟨_, rfl⟩
  | none => exact ⟨[], rfl⟩
  | bool b => exact ⟨[], rfl⟩
  | int n => exact ⟨[], rfl⟩
  | str s => exact ⟨[], rfl⟩
  | dict kvs => exact ⟨[], rfl⟩

/-- The `json.loads` collaborator that fails on every input. -/
def jpNone : String → Option PyVal := fun _ => Option.none

/-- Claim C1 (amended).  `normalize_final_report_data` is total (the model
is a plain function) and for every dict-shaped input and every JSON
parser its result carries a string `title`, a string
`executive_summary`, lists of strings under `key_insights` and
`recommendations`, a list under `evidence`, and a list of dicts under
`sources`; the `confidence` entry is never added or coerced — it is
exactly whatever the input held. -/
theorem c1_normalization_shape (jp : String → Option PyVal)
    (data : List (String × PyVal)) :
    (∃ s, dlookup (normalizeFinalReportData jp data) "title" =
      some (.str s)) ∧
    (∃ s, dlookup (normalizeFinalReportData jp data) "executive_summary" =
      some (.str s)) ∧
    (∃ l : List String,
      dlookup (normalizeFinalReportData jp data) "key_insights" =
        some (.list (l.map .str))) ∧
    (∃ l : List String,
      dlookup (normalizeFinalReportData jp data) "recommendations" =
        some (.list (l.map .str))) ∧
    (∃ xs, dlookup (normalizeFinalReportData jp data) "evidence" =
      some (.list xs)) ∧
    (∃ xs, dlookup (normalizeFinalReportData jp data) "sources" =
      some (.list xs) ∧ ∀ v ∈ xs, isDictB v = true) ∧
    dlookup (normalizeFinalReportData jp data) "confidence" =
      dlookup data "confidence" := by
  refine ⟨⟨titleVal data, dlookup_normalize_title jp data⟩,
    ⟨execVal data, dlookup_normalize_exec jp data⟩,
    ⟨insightsVal data, dlookup_normalize_insights jp data⟩,
    ⟨recsVal data, dlookup_normalize_recs jp data⟩,
    ?_, ?_, ?_⟩
  · obtain ⟨xs, hxs⟩ := normEvidence_is_list
      (pyOr (dgetv data "evidence") (.list []))
    exact ⟨xs, by rw [dlookup_normalize_evidence jp data, evidenceVal, hxs]⟩
  · refine ⟨sourcesVal jp data, dlookup_normalize_sources jp data, ?_⟩
    intro v hv
    obtain ⟨w, _, rfl⟩ := List.mem_map.mp hv
    exact finalSourceCoerce_isDict w
  · exact dlookup_normalize_other jp data "confidence"
      (by decide) (by decide) (by decide) (by decide) (by decide) (by decide)

/-- Claim C1 (counterexample).  On the dict-shaped input
`{"evidence": [5]}` the normalized result has no `confidence` entry at
all, and its `evidence` value is the non-dict list `[5]` — so the
original claim (all seven `FinalReport` fields present, `evidence` a
list of dicts, `confidence` an enum value) is false of the code. -/
theorem c1_counterexample :
    dlookup (normalizeFinalReportData jpNone
      [("evidence", PyVal.list [PyVal.int 5])]) "confidence" =
        Option.none ∧
    dlookup (normalizeFinalReportData jpNone
      [("evidence", PyVal.list [PyVal.int 5])]) "evidence" =
        some (.list [.int 5]) := by
  constructor
  · rw [dlookup_normalize_other jpNone _ "confidence"
      (by decide) (by decide) (by decide) (by decide) (by decide) (by decide)]
    rfl
  · rw [dlookup_normalize_evidence]
    rfl

/-! ### Stability of the normalized field values under a second pass -/

theorem truthy_str_of_ne (s : String) (h : s ≠ "") :
    truthy (PyVal.str s) = true := by
  have : s.isEmpty = false := by
    rw [Bool.eq_false_iff]
    intro hx
    exact h ((String.isEmpty_iff s).mp hx)
  simp [truthy, this]

theorem containsKey_of_dlookup (d : List (String × PyVal)) (k : String)
    (v : PyVal) (h : dlookup d k = some v) : containsKey d k = true := by
  induction d with
  | nil => cases h
  | cons p ps ih =>
    rw [dlookup_cons] at h
    rw [containsKey_cons]
    by_cases hp : p.1 = k
    · simp [hp]
    · rw [if_neg hp] at h
      simp [ih h]

theorem dgetv_normalize_title (jp : String → Option PyVal)
    (d : List (String × PyVal)) :
    dgetv (normalizeFinalReportData jp d) "title" = .str (titleVal d) := by
  rw [dgetv, dlookup_normalize_title]; rfl

theorem dgetv_normalize_exec (jp : String → Option PyVal)
    (d : List (String × PyVal)) :
    dgetv (normalizeFinalReportData jp d) "executive_summary" =
      .str (execVal d) := by
  rw [dgetv, dlookup_normalize_exec]; rfl

theorem dgetv_normalize_insights (jp : String → Option PyVal)
    (d : List (String × PyVal)) :
    dgetv (normalizeFinalReportData jp d) "key_insights" =
      .list ((insightsVal d).map .str) := by
  rw [dgetv, dlookup_normalize_insights]; rfl

theorem dgetv_normalize_recs (jp : String → Option PyVal)
    (d : List (String × PyVal)) :
    dgetv (normalizeFinalReportData jp d) "recommendations" =
      .list ((recsVal d).map .str) := by
  rw [dgetv, dlookup_normalize_recs]; rfl

theorem dgetv_normalize_evidence (jp : String → Option PyVal)
    (d : List (String × PyVal)) :
    dgetv (normalizeFinalReportData jp d) "evidence" = evidenceVal d := by
  rw [dgetv, dlookup_normalize_evidence]; rfl

theorem dgetv_normalize_sources (jp : String → Option PyVal)
    (d : List (String × PyVal)) :
    dgetv (normalizeFinalReportData jp d) "sources" =
      .list (sourcesVal jp d) := by
  rw [dgetv, dlookup_normalize_sources]; rfl

theorem dgetv_normalize_other (jp : String → Option PyVal)
    (d : List (String × PyVal)) (k : String)
    (h1 : ¬"title" = k) (h2 : ¬"executive_summary" = k)
    (h3 : ¬"key_insights" = k) (h4 : ¬"recommendations" = k)
    (h5 : ¬"evidence" = k) (h6 : ¬"sources" = k) :
    dgetv (normalizeFinalReportData jp d) k = dgetv d k := by
  rw [dgetv, dlookup_normalize_other jp d k h1 h2 h3 h4 h5 h6]
  rfl

theorem titleVal_ne_empty (d : List (String × PyVal)) : titleVal d ≠ "" := by
  rw [titleVal]
  by_cases h1 : truthy (dgetv d "title") = true
  · rw [pyOr_pos _ _ h1]
    exact pyStr_ne_empty_of_truthy _ h1
  · rw [pyOr_neg _ _ (by simpa using h1)]
    by_cases h2 : truthy (dgetv d "name") = true
    · rw [pyOr_pos _ _ h2]
      exact pyStr_ne_empty_of_truthy _ h2
    · rw [pyOr_neg _ _ (by simpa using h2)]
      decide

theorem titleVal_normalize (jp : String → Option PyVal)
    (d : List (String × PyVal)) :
    titleVal (normalizeFinalReportData jp d) = titleVal d := by
  conv_lhs => rw [titleVal]
  rw [dgetv_normalize_title,
    pyOr_pos _ _ (truthy_str_of_ne _ (titleVal_ne_empty d))]
  rfl

theorem execVal_normalize (jp : String → Option PyVal)
    (d : List (String × PyVal))
    (hA : ¬(dgetv d "executive_summary" = PyVal.list [PyVal.str ""] ∧
      truthy (dgetv d "summary") = true)) :
    execVal (normalizeFinalReportData jp d) = execVal d := by
  have h2 : dgetv (normalizeFinalReportData jp d) "summary" = dgetv d "summary" :=
    dgetv_normalize_other jp d "summary"
      (by decide) (by decide) (by decide) (by decide) (by decide) (by decide)
  by_cases hemp : execVal d = ""
  · conv_lhs => rw [execVal]
    rw [dgetv_normalize_exec, h2, hemp,
      pyOr_neg _ _ (by decide : truthy (PyVal.str "") = false)]
    by_cases hB2 : truthy (dgetv d "summary") = true
    · by_cases hA2 : truthy (dgetv d "executive_summary") = true
      · exfalso
        apply hA
        refine ⟨?_, hB2⟩
        apply normExecVal_empty_of_truthy _ hA2
        have hx : execVal d = normExecVal (dgetv d "executive_summary") := by
          rw [execVal, pyOr_pos _ _ hA2]
        rw [← hx]
        exact hemp
      · have hBeq : dgetv d "summary" = PyVal.list [PyVal.str ""] := by
          apply normExecVal_empty_of_truthy _ hB2
          have hx : execVal d = normExecVal (dgetv d "summary") := by
            rw [execVal, pyOr_neg _ _ (by simpa using hA2), pyOr_pos _ _ hB2]
          rw [← hx]
          exact hemp
        rw [pyOr_pos _ _ hB2, hBeq]
        rfl
    · rw [pyOr_neg _ _ (by simpa using hB2)]
      rfl
  · conv_lhs => rw [execVal]
    rw [dgetv_normalize_exec, h2,
      pyOr_pos _ _ (truthy_str_of_ne _ hemp), normExecVal_str]

theorem chain_ensureListOfStr_ne_nil (a b : PyVal) :
    ensureListOfStr (pyOr a (pyOr b (.str ""))) ≠ [] := by
  by_cases ha : truthy a = true
  · rw [pyOr_pos _ _ ha]
    exact ensureListOfStr_ne_nil a ha
  · rw [pyOr_neg _ _ (by simpa using ha)]
    by_cases hb : truthy b = true
    · rw [pyOr_pos _ _ hb]
      exact ensureListOfStr_ne_nil b hb
    · rw [pyOr_neg _ _ (by simpa using hb)]
      exact ensureListOfStr_str_ne_nil ""

theorem insightsVal_normalize (jp : String → Option PyVal)
    (d : List (String × PyVal)) :
    insightsVal (normalizeFinalReportData jp d) = insightsVal d := by
  have h2 : dgetv (normalizeFinalReportData jp d) "insights" = dgetv d "insights" :=
    dgetv_normalize_other jp d "insights"
      (by decide) (by decide) (by decide) (by decide) (by decide) (by decide)
  have hne : insightsVal d ≠ [] := chain_ensureListOfStr_ne_nil _ _
  have htr : truthy (.list ((insightsVal d).map .str)) = true := by
    simp [truthy, hne]
  conv_lhs => rw [insightsVal]
  rw [dgetv_normalize_insights, h2, pyOr_pos _ _ htr, ensureListOfStr_map_str]

theorem recsVal_normalize (jp : String → Option PyVal)
    (d : List (String × PyVal)) :
    recsVal (normalizeFinalReportData jp d) = recsVal d := by
  have h2 : dgetv (normalizeFinalReportData jp d) "next_steps" = dgetv d "next_steps" :=
    dgetv_normalize_other jp d "next_steps"
      (by decide) (by decide) (by decide) (by decide) (by decide) (by decide)
  have hne : recsVal d ≠ [] := chain_ensureListOfStr_ne_nil _ _
  have htr : truthy (.list ((recsVal d).map .str)) = true := by
    simp [truthy, hne]
  conv_lhs => rw [recsVal]
  rw [dgetv_normalize_recs, h2, pyOr_pos _ _ htr, ensureListOfStr_map_str]

theorem evidenceVal_normalize (jp : String → Option PyVal)
    (d : List (String × PyVal)) :
    evidenceVal (normalizeFinalReportData jp d) = evidenceVal d := by
  obtain ⟨xs, hxs⟩ := normEvidence_is_list (pyOr (dgetv d "evidence") (.list []))
  have hev : evidenceVal d = .list xs := by rw [evidenceVal, hxs]
  conv_lhs => rw [evidenceVal]
  rw [dgetv_normalize_evidence, hev]
  cases xs with
  | nil =>
    rw [pyOr_neg _ _ (by decide : truthy (PyVal.list []) = false)]
    rfl
  | cons x rest =>
    rw [pyOr_pos _ _ (rfl : truthy (PyVal.list (x :: rest)) = true), ← hxs]
    exact normEvidence_idem _

theorem ensureListOfDictsSources_nil (jp : String → Option PyVal) :
    ensureListOfDictsSources jp (.list []) = [] := by
  rw [ensureListOfDictsSources_not_none jp _ (by intro h; cases h),
    pyFlatten_list, pyFlattenList_nil]
  rfl

theorem sourcesVal_mem_isDict (jp : String → Option PyVal)
    (d : List (String × PyVal)) :
    ∀ v ∈ sourcesVal jp d, isDictB v = true := by
  intro v hv
  obtain ⟨w, _, rfl⟩ := List.mem_map.mp hv
  exact finalSourceCoerce_isDict w

theorem map_finalSourceCoerce_of_dicts (xs : List PyVal)
    (h : ∀ x ∈ xs, isDictB x = true) : xs.map finalSourceCoerce = xs := by
  calc xs.map finalSourceCoerce = xs.map id := by
        apply List.map_congr_left
        intro x hx
        have := h x hx
        cases x <;> simp [isDictB] at this <;> rfl
    _ = xs := List.map_id xs

theorem sourcesRaw_normalize (jp : String → Option PyVal)
    (d : List (String × PyVal))
    (hB : ¬(truthy (dgetv d "sources") = true ∧
      pyFlatten (dgetv d "sources") = [] ∧
      truthy (dgetv d "references") = true)) :
    sourcesRaw jp (normalizeFinalReportData jp d) = sourcesVal jp d := by
  have h2 : dgetv (normalizeFinalReportData jp d) "references" = dgetv d "references" :=
    dgetv_normalize_other jp d "references"
      (by decide) (by decide) (by decide) (by decide) (by decide) (by decide)
  conv_lhs => rw [sourcesRaw]
  rw [dgetv_normalize_sources, h2]
  cases hsv : sourcesVal jp d with
  | cons x rest =>
    rw [pyOr_pos _ _ (rfl : truthy (PyVal.list (x :: rest)) = true), ← hsv]
    rw [ensureListOfDictsSources_of_dicts jp _ (sourcesVal_mem_isDict jp d)]
  | nil =>
    rw [pyOr_neg _ _ (by decide : truthy (PyVal.list []) = false)]
    -- the one-pass sources came out empty: show the second pass is empty too
    have hraw : sourcesRaw jp d = [] := by
      have := hsv
      rw [sourcesVal] at this
      exact List.map_eq_nil.mp this
    have hflat : pyOr (dgetv d "sources")
        (pyOr (dgetv d "references") (.list [])) = PyVal.none ∨
        pyFlatten (pyOr (dgetv d "sources")
          (pyOr (dgetv d "references") (.list []))) = [] := by
      rw [← ensureListOfDictsSources_eq_nil_iff jp]
      rw [← sourcesRaw]
      exact hraw
    by_cases hs : truthy (dgetv d "sources") = true
    · -- the raw sources were truthy yet flattened to nothing; by hB the
      -- references are falsy, so the second pass falls through to []
      have hrf : truthy (dgetv d "references") = false := by
        rcases hflat with hn | hf
        · rw [pyOr_pos _ _ hs] at hn
          rw [hn] at hs
          exact absurd hs (by decide)
        · rw [pyOr_pos _ _ hs] at hf
          by_contra hc
          exact hB ⟨hs, hf, by simpa using hc⟩
      rw [pyOr_neg _ _ hrf]
      exact ensureListOfDictsSources_nil jp
    · rw [pyOr_neg _ _ (by simpa using hs)] at hflat
      by_cases hr : truthy (dgetv d "references") = true
      · rw [pyOr_pos _ _ hr] at hflat
        rw [pyOr_pos _ _ hr]
        rcases hflat with hn | hf
        · rw [hn] at hr
          exact absurd hr (by decide)
        · rw [ensureListOfDictsSources_eq_nil_iff]
          exact Or.inr hf
      · rw [pyOr_neg _ _ (by simpa using hr)]
        exact ensureListOfDictsSources_nil jp

theorem sourcesVal_normalize (jp : String → Option PyVal)
    (d : List (String × PyVal))
    (hB : ¬(truthy (dgetv d "sources") = true ∧
      pyFlatten (dgetv d "sources") = [] ∧
      truthy (dgetv d "references") = true)) :
    sourcesVal jp (normalizeFinalReportData jp d) = sourcesVal jp d := by
  conv_lhs => rw [sourcesVal]
  rw [sourcesRaw_normalize jp d hB]
  exact map_finalSourceCoerce_of_dicts _ (sourcesVal_mem_isDict jp d)

theorem allVal_normalize_title (jp : String → Option PyVal)
    (d : List (String × PyVal)) :
    AllVal (normalizeFinalReportData jp d) "title" (.str (titleVal d)) := by
  rw [normalize_eq]
  exact allVal_dset_other _ _ _ _ _ (by decide)
    (allVal_dset_other _ _ _ _ _ (by decide)
    (allVal_dset_other _ _ _ _ _ (by decide)
    (allVal_dset_other _ _ _ _ _ (by decide)
    (allVal_dset_other _ _ _ _ _ (by decide)
    (allVal_dset_other _ _ _ _ _ (by decide)
    (allVal_dset_self _ _ _))))))

theorem allVal_normalize_exec (jp : String → Option PyVal)
    (d : List (String × PyVal)) :
    AllVal (normalizeFinalReportData jp d) "executive_summary"
      (.str (execVal d)) := by
  rw [normalize_eq]
  exact allVal_dset_other _ _ _ _ _ (by decide)
    (allVal_dset_other _ _ _ _ _ (by decide)
    (allVal_dset_other _ _ _ _ _ (by decide)
    (allVal_dset_other _ _ _ _ _ (by decide)
    (allVal_dset_other _ _ _ _ _ (by decide)
    (allVal_dset_self _ _ _)))))

theorem allVal_normalize_insights (jp : String → Option PyVal)
    (d : List (String × PyVal)) :
    AllVal (normalizeFinalReportData jp d) "key_insights"
      (.list ((insightsVal d).map .str)) := by
  rw [normalize_eq]
  exact allVal_dset_other _ _ _ _ _ (by decide)
    (allVal_dset_other _ _ _ _ _ (by decide)
    (allVal_dset_other _ _ _ _ _ (by decide)
    (allVal_dset_other _ _ _ _ _ (by decide)
    (allVal_dset_self _ _ _))))

theorem allVal_normalize_recs (jp : String → Option PyVal)
    (d : List (String × PyVal)) :
    AllVal (normalizeFinalReportData jp d) "recommendations"
      (.list ((recsVal d).map .str)) := by
  rw [normalize_eq]
  exact allVal_dset_other _ _ _ _ _ (by decide)
    (allVal_dset_other _ _ _ _ _ (by decide)
    (allVal_dset_other _ _ _ _ _ (by decide)
    (allVal_dset_self _ _ _)))

theorem allVal_normalize_evidence (jp : String → Option PyVal)
    (d : List (String × PyVal)) :
    AllVal (normalizeFinalReportData jp d) "evidence" (evidenceVal d) := by
  rw [normalize_eq]
  exact allVal_dset_other _ _ _ _ _ (by decide)
    (allVal_dset_other _ _ _ _ _ (by decide)
    (allVal_dset_self _ _ _))

theorem allVal_normalize_sources (jp : String → Option PyVal)
    (d : List (String × PyVal)) :
    AllVal (normalizeFinalReportData jp d) "sources"
      (.list (sourcesVal jp d)) := by
  rw [normalize_eq]
  exact allVal_dset_self _ _ _

/-- Claim C2 (amended).  `normalize_final_report_data` is idempotent on
every dict-shaped input except in two alias-fallback corner cases: (a)
the input's `executive_summary` is the truthy list `[""]` (whose
normalization is the falsy empty string) while a truthy `summary` alias
is present, and (b) the input's `sources` is a truthy nesting of empty
lists (which flattens to the falsy empty list) while a truthy
`references` alias is present.  Outside these two situations
`normalize(normalize(R)) = normalize(R)`. -/
theorem c2_normalization_idempotent_amended (jp : String → Option PyVal)
    (data : List (String × PyVal))
    (hA : ¬(dgetv data "executive_summary" = PyVal.list [PyVal.str ""] ∧
      truthy (dgetv data "summary") = true))
    (hB : ¬(truthy (dgetv data "sources") = true ∧
      pyFlatten (dgetv data "sources") = [] ∧
      truthy (dgetv data "references") = true)) :
    normalizeFinalReportData jp (normalizeFinalReportData jp data) =
      normalizeFinalReportData jp data := by
  rw [normalize_eq jp (normalizeFinalReportData jp data)]
  rw [titleVal_normalize jp data, execVal_normalize jp data hA,
    insightsVal_normalize jp data, recsVal_normalize jp data,
    evidenceVal_normalize jp data, sourcesRaw_normalize jp data hB,
    sourcesVal_normalize jp data hB]
  rw [dset_eq_self _ _ _
    (containsKey_of_dlookup _ _ _ (dlookup_normalize_title jp data))
    (allVal_normalize_title jp data)]
  rw [dset_eq_self _ _ _
    (containsKey_of_dlookup _ _ _ (dlookup_normalize_exec jp data))
    (allVal_normalize_exec jp data)]
  rw [dset_eq_self _ _ _
    (containsKey_of_dlookup _ _ _ (dlookup_normalize_insights jp data))
    (allVal_normalize_insights jp data)]
  rw [dset_eq_self _ _ _
    (containsKey_of_dlookup _ _ _ (dlookup_normalize_recs jp data))
    (allVal_normalize_recs jp data)]
  rw [dset_eq_self _ _ _
    (containsKey_of_dlookup _ _ _ (dlookup_normalize_evidence jp data))
    (allVal_normalize_evidence jp data)]
  rw [dset_eq_self _ _ _
    (containsKey_of_dlookup _ _ _ (dlookup_normalize_sources jp data))
    (allVal_normalize_sources jp data)]
  rw [dset_eq_self _ _ _
    (containsKey_of_dlookup _ _ _ (dlookup_normalize_sources jp data))
    (allVal_normalize_sources jp data)]

/-- Claim C2 (witness).  The amended idempotence theorem applied to the
concrete input `{"title": "T"}` with the always-failing JSON parser. -/
theorem c2_idempotent_witness :
    normalizeFinalReportData jpNone
      (normalizeFinalReportData jpNone [("title", PyVal.str "T")]) =
      normalizeFinalReportData jpNone [("title", PyVal.str "T")] :=
  c2_normalization_idempotent_amended jpNone [("title", PyVal.str "T")]
    (by intro h; exact absurd h.1 (by intro hx; cases hx))
    (by intro h; exact absurd h.1 (by intro hx; cases hx))

/-- Claim C2 (counterexample).  On
`{"sources": [[]], "references": "https://x.com"}` one pass yields
`sources = []` (the truthy `[[]]` flattens to nothing), while the second
pass sees the falsy `[]`, falls back to the still-present `references`
alias and yields `sources = [{"url": "https://x.com"}]` — so
`normalize(normalize(R)) ≠ normalize(R)` as stated. -/
theorem c2_counterexample :
    dlookup (normalizeFinalReportData jpNone (normalizeFinalReportData jpNone
        [("sources", PyVal.list [PyVal.list []]),
         ("references", PyVal.str "https://x.com")])) "sources" ≠
      dlookup (normalizeFinalReportData jpNone
        [("sources", PyVal.list [PyVal.list []]),
         ("references", PyVal.str "https://x.com")]) "sources" := by
  have hd0 : sourcesVal jpNone
      [("sources", PyVal.list [PyVal.list []]),
       ("references", PyVal.str "https://x.com")] = [] := by
    rw [sourcesVal, sourcesRaw]
    rw [show dgetv [("sources", PyVal.list [PyVal.list []]),
      ("references", PyVal.str "https://x.com")] "sources" =
        PyVal.list [PyVal.list []] from rfl]
    rw [pyOr_pos _ _ (rfl : truthy (PyVal.list [PyVal.list []]) = true)]
    rw [ensureListOfDictsSources_not_none _ _ (by intro h; cases h),
      pyFlatten_list, pyFlattenList_cons, pyFlatten_list, pyFlattenList_nil]
    simp
  have hr : dgetv (normalizeFinalReportData jpNone
      [("sources", PyVal.list [PyVal.list []]),
       ("references", PyVal.str "https://x.com")]) "sources" =
      PyVal.list [] := by
    rw [dgetv_normalize_sources, hd0]
  have hrefs : dgetv (normalizeFinalReportData jpNone
      [("sources", PyVal.list [PyVal.list []]),
       ("references", PyVal.str "https://x.com")]) "references" =
      PyVal.str "https://x.com" := by
    rw [dgetv_normalize_other jpNone _ "references"
      (by decide) (by decide) (by decide) (by decide) (by decide) (by decide)]
    rfl
  have hr2 : sourcesVal jpNone (normalizeFinalReportData jpNone
      [("sources", PyVal.list [PyVal.list []]),
       ("references", PyVal.str "https://x.com")]) =
      [PyVal.dict [("url", PyVal.str "https://x.com")]] := by
    rw [sourcesVal, sourcesRaw, hr, hrefs]
    rw [pyOr_neg _ _ (by decide : truthy (PyVal.list []) = false)]
    rw [pyOr_pos _ _ (by decide : truthy (PyVal.str "https://x.com") = true)]
    rw [ensureListOfDictsSources_not_none _ _ (by intro h; cases h),
      pyFlatten_atom _ (by intro ys h; cases h)]
    rfl
  rw [dlookup_normalize_sources, dlookup_normalize_sources, hd0, hr2]
  intro h
  injection h with h
  cases h

/-! ### C8: the per-element source coercion rules -/

theorem listIsPrefixOf_cons_cons (p c : Char) (ps cs : List Char) :
    listIsPrefixOf (p :: ps) (c :: cs) = (p = c && listIsPrefixOf ps cs) := rfl

theorem listIsPrefixOf_head (p : Char) (ps l : List Char)
    (h : listIsPrefixOf (p :: ps) l = true) :
    ∃ l2, l = p :: l2 ∧ listIsPrefixOf ps l2 = true := by
  cases l with
  | nil => cases h
  | cons c cs =>
    rw [listIsPrefixOf_cons_cons] at h
    simp at h
    exact ⟨cs, by rw [h.1], h.2⟩

theorem chunkIdCore_head (l : List Char) (h : chunkIdCore l = true) :
    ∃ l2, l = 'c' :: l2 := by
  unfold chunkIdCore at h
  split at h
  · exact ⟨_, rfl⟩
  · cases h

theorem chunkIdMatch_head (s : String) (h : chunkIdMatch s = true) :
    ∃ l2, s.toList = 'c' :: l2 := by
  rw [chunkIdMatch] at h
  rcases Bool.or_eq_true_iff.mp h with h1 | h1
  · exact chunkIdCore_head _ h1
  · split at h1
    · rename_i rest heq
      obtain ⟨l2, hl2⟩ := chunkIdCore_head _ h1
      refine ⟨l2 ++ ['\n'], ?_⟩
      have : s.toList = rest.reverse ++ ['\n'] := by
        have := congrArg List.reverse heq
        simpa using this
      rw [this, hl2]
      rfl
    · cases h1

theorem brace_false_of_head (s : String) (c : Char) (l : List Char)
    (hl : s.toList = c :: l) (hc : ¬('\x7b' = c)) :
    pyStartsWith s "\x7b" = false := by
  rw [pyStartsWith, show ("\x7b".toList) = ['\x7b'] from rfl, hl,
    listIsPrefixOf_cons_cons]
  simp [hc]

theorem brace_false_of_chunk (s : String) (h : chunkIdMatch s = true) :
    pyStartsWith s "\x7b" = false := by
  obtain ⟨l, hl⟩ := chunkIdMatch_head s h
  exact brace_false_of_head s 'c' l hl (by decide)

theorem brace_false_of_http (s : String)
    (h : (pyStartsWith s "http://" || pyStartsWith s "https://") = true) :
    pyStartsWith s "\x7b" = false := by
  rcases Bool.or_eq_true_iff.mp h with h1 | h1
  · rw [pyStartsWith, show ("http://".toList) = 'h' :: "ttp://".toList from rfl] at h1
    obtain ⟨l2, hl2, _⟩ := listIsPrefixOf_head _ _ _ h1
    exact brace_false_of_head s 'h' l2 hl2 (by decide)
  · rw [pyStartsWith, show ("https://".toList) = 'h' :: "ttps://".toList from rfl] at h1
    obtain ⟨l2, hl2, _⟩ := listIsPrefixOf_head _ _ _ h1
    exact brace_false_of_head s 'h' l2 hl2 (by decide)

/-- Modelled from the claim's wording (spec §4.4 rule 6): the
per-element coercion rule for the normalized sources list — a dict
passes through, a (stripped) string matching the chunk-id pattern
becomes `{"id": s}`, an `http(s)` string becomes `{"url": s}`, a string
parsing as a JSON object becomes that dict, any other string becomes
`{"value": s}`, and a non-string atom becomes `{"value": str(atom)}`. -/
def specSourceRule (jp : String → Option PyVal) (x : PyVal) : PyVal :=
  match x with
  | .dict kvs => .dict kvs
  | .str s0 =>
    let s := pyStrip s0
    if chunkIdMatch s then .dict [("id", .str s)]
    else if pyStartsWith s "http://" || pyStartsWith s "https://" then
      .dict [("url", .str s)]
    else
      match jp s with
      | some (.dict kvs) => .dict kvs
      | _ => .dict [("value", .str s)]
  | v => .dict [("value", .str (pyStr v))]

theorem coerceSourceItem_eq_spec (jp : String → Option PyVal)
    (hjp : ∀ s kvs, jp s = some (.dict kvs) →
      pyStartsWith s "\x7b" = true ∧ pyEndsWith s "\x7d" = true)
    (x : PyVal) : coerceSourceItem jp x = specSourceRule jp x := by
  cases x with
  | dict kvs => rfl
  | none => rfl
  | bool b => rfl
  | int n => rfl
  | list xs => rfl
  | str s0 =>
    simp only [coerceSourceItem, specSourceRule]
    by_cases hc : chunkIdMatch (pyStrip s0) = true
    · rw [if_neg (by simp [brace_false_of_chunk _ hc]), coerceStr,
        if_pos hc, if_pos hc]
    · by_cases hh : (pyStartsWith (pyStrip s0) "http://" ||
        pyStartsWith (pyStrip s0) "https://") = true
      · rw [if_neg (by simp [brace_false_of_http _ hh]), coerceStr,
          if_neg hc, if_pos hh, if_neg hc, if_pos hh]
      · by_cases hg : (pyStartsWith (pyStrip s0) "\x7b" &&
          pyEndsWith (pyStrip s0) "\x7d") = true
        · rw [if_pos hg, if_neg hc, if_neg hh]
          cases hj : jp (pyStrip s0) with
          | none => rw [coerceStr, if_neg hc, if_neg hh]
          | some v =>
            cases v with
            | dict kvs => rfl
            | none => rw [coerceStr, if_neg hc, if_neg hh]
            | bool b => rw [coerceStr, if_neg hc, if_neg hh]
            | int n => rw [coerceStr, if_neg hc, if_neg hh]
            | str s => rw [coerceStr, if_neg hc, if_neg hh]
            | list xs => rw [coerceStr, if_neg hc, if_neg hh]
        · rw [if_neg hg, coerceStr, if_neg hc, if_neg hh, if_neg hc, if_neg hh]
          cases hj : jp (pyStrip s0) with
          | none => rfl
          | some v =>
            cases v with
            | dict kvs =>
              exfalso
              have := hjp _ _ hj
              exact hg (by simp [this.1, this.2])
            | none => rfl
            | bool b => rfl
            | int n => rfl
            | str s => rfl
            | list xs => rfl

theorem pyFlattenList_of_atoms (xs : List PyVal)
    (h : ∀ x ∈ xs, ∀ ys, x ≠ PyVal.list ys) : pyFlattenList xs = xs := by
  induction xs with
  | nil => exact pyFlattenList_nil
  | cons x rest ih =>
    rw [pyFlattenList_cons, pyFlatten_atom x (h x (by simp)),
      ih (fun y hy => h y (by simp [hy]))]
    rfl

/-- Claim C8 (confirmed).  Source coercion follows the claimed fixed
per-element rules (with each string first stripped, as the code does):
on any list of non-list elements, `_ensure_list_of_dicts_sources` maps
each element through the claimed rule table — dicts pass through,
chunk-id strings become `{"id": s}`, `http(s)` strings become
`{"url": s}`, JSON-object strings become the parsed dict, all other
strings become `{"value": s}` — and in particular
`["chunk-abc123-00", "https://x.com", "plain text"]` normalizes to
`[{"id": ...}, {"url": ...}, {"value": ...}]`.  The hypothesis on `jp`
states the defining property of `json.loads`: it only yields a JSON
object for brace-delimited text. -/
theorem c8_source_coercion (jp : String → Option PyVal)
    (hjp : ∀ s kvs, jp s = some (.dict kvs) →
      pyStartsWith s "\x7b" = true ∧ pyEndsWith s "\x7d" = true) :
    (∀ xs, (∀ x ∈ xs, ∀ ys, x ≠ PyVal.list ys) →
      ensureListOfDictsSources jp (.list xs) = xs.map (specSourceRule jp)) ∧
    ensureListOfDictsSources jp (.list [.str "chunk-abc123-00",
      .str "https://x.com", .str "plain text"]) =
      [.dict [("id", .str "chunk-abc123-00")],
       .dict [("url", .str "https://x.com")],
       .dict [("value", .str "plain text")]] := by
  have hmain : ∀ xs, (∀ x ∈ xs, ∀ ys, x ≠ PyVal.list ys) →
      ensureListOfDictsSources jp (.list xs) = xs.map (specSourceRule jp) := by
    intro xs hxs
    rw [ensureListOfDictsSources_not_none jp _ (by intro h; cases h),
      pyFlatten_list, pyFlattenList_of_atoms xs hxs]
    exact List.map_congr_left (fun x _ => coerceSourceItem_eq_spec jp hjp x)
  refine ⟨hmain, ?_⟩
  rw [hmain _ (by
    intro x hx ys
    simp at hx
    rcases hx with h | h | h <;> (subst h; intro hq; cases hq))]
  have h3 : ∀ kvs, jp "plain text" ≠ some (.dict kvs) := by
    intro kvs hk
    have := (hjp _ _ hk).1
    rw [show pyStartsWith "plain text" "\x7b" = false from by decide] at this
    cases this
  simp only [List.map_cons, List.map_nil, specSourceRule]
  rw [show pyStrip "chunk-abc123-00" = "chunk-abc123-00" from by decide,
    show pyStrip "https://x.com" = "https://x.com" from by decide,
    show pyStrip "plain text" = "plain text" from by decide]
  rw [if_pos (by decide : chunkIdMatch "chunk-abc123-00" = true)]
  rw [if_neg (by decide : ¬chunkIdMatch "https://x.com" = true)]
  rw [if_pos (by decide : (pyStartsWith "https://x.com" "http://" ||
    pyStartsWith "https://x.com" "https://") = true)]
  rw [if_neg (by decide : ¬chunkIdMatch "plain text" = true)]
  rw [if_neg (by decide : ¬(pyStartsWith "plain text" "http://" ||
    pyStartsWith "plain text" "https://") = true)]
  cases hj : jp "plain text" with
  | none => rfl
  | some v =>
    cases v with
    | dict kvs => exact absurd hj (h3 kvs)
    | none => rfl
    | bool b => rfl
    | int n => rfl
    | str s => rfl
    | list xs => rfl

/-- Claim C8 (witness).  The concrete example instance of the coercion
theorem, with the always-failing JSON parser. -/
theorem c8_source_coercion_witness :
    ensureListOfDictsSources jpNone (.list [.str "chunk-abc123-00",
      .str "https://x.com", .str "plain text"]) =
      [.dict [("id", .str "chunk-abc123-00")],
       .dict [("url", .str "https://x.com")],
       .dict [("value", .str "plain text")]] :=
  (c8_source_coercion jpNone (by intro s kvs h; cases h)).2

/-! ### `app/chat/session_manager.py` and `app/api/main.py`:
report store and chunk-id resolution -/

/-- `get_report` from `session_manager.py`: look the report id up in the
in-memory `_REPORTS` store, raising `KeyError` when absent. -/
def getReport (reports : List (String × PyVal)) (rid : String) :
    Except String PyVal :=
  match dlookup reports rid with
  | some e => .ok e
  | Option.none => .error ("report " ++ rid ++ " not found")

/-- Index of the first occurrence of `sep` in a character list. -/
def findSubIdx (sep : List Char) : List Char → Option Nat
  | [] => if listIsPrefixOf sep [] then some 0 else Option.none
  | c :: rest =>
    if listIsPrefixOf sep (c :: rest) then some 0
    else (findSubIdx sep rest).map (· + 1)

/-- The parent-report id derivation of `_resolve_chunk_ids`:
`cid.split("-chunk-")[0] if "-chunk-" in cid else cid.split("-")[0]`. -/
def derivePrefix (cid : String) : String :=
  match findSubIdx "-chunk-".toList cid.toList with
  | some i => String.mk (cid.toList.take i)
  | Option.none => String.mk (cid.toList.takeWhile (fun c => !(c = '-')))

/-- The chunk-scan loop of `_resolve_chunk_ids`: find the first chunk
whose `id` equals `cid`; a non-dict chunk makes `c.get` raise (caught by
the enclosing `except`). -/
def scanChunks (cid : String) : List PyVal →
    Except String (Option (List (String × PyVal)))
  | [] => .ok Option.none
  | c :: rest =>
    match c with
    | .dict kvs =>
      if (match dgetv kvs "id" with
          | .str s => s == cid
          | _ => false) then .ok (some kvs)
      else scanChunks cid rest
    | _ => .error "AttributeError"

/-- One iteration of `_resolve_chunk_ids` from `app/api/main.py`: pass
non-dicts and non-matching ids through; otherwise derive the parent
report id, look it up, and attach the matching chunk's text as
`excerpt`; every failure inside the `try` leaves the item unchanged.
Iterating a non-list `chunks` value either raises or yields non-dict
elements whose `.get` raises, so in either case the item passes through
unchanged, which the model folds into the non-list branch. -/
def resolveItem (reports : List (String × PyVal)) (item : PyVal) : PyVal :=
  match item with
  | .dict kvs =>
    (match dgetv kvs "id" with
     | .str cid =>
       if chunkIdMatch cid then
         let parentId := derivePrefix cid
         match getReport reports parentId with
         | .error _ => item
         | .ok rep =>
           match rep with
           | .dict rkvs =>
             (match pyOr ((dlookup rkvs "chunks").getD (.list [])) (.list []) with
              | .list cs =>
                (match scanChunks cid cs with
                 | .error _ => item
                 | .ok Option.none => item
                 | .ok (some ckvs) =>
                   if containsKey ckvs "text" then
                     .dict (dset kvs "excerpt" (dgetv ckvs "text"))
                   else .dict kvs)
              | _ => item)
           | _ => item
       else item
     | _ => item)
  | v => v

/-- `_resolve_chunk_ids` from `app/api/main.py`. -/
def resolveChunkIds (reports : List (String × PyVal))
    (srcs : List PyVal) : List PyVal :=
  srcs.map (resolveItem reports)

/-- A stored report in the claimed scenario: report `report-aaaa` whose
chunk list contains the chunk `report-aaaa-chunk-3` with text `"T"`
(exactly the shape `store_report` produces). -/
def c3Store : List (String × PyVal) :=
  [("report-aaaa", .dict [("report_id", .str "report-aaaa"),
    ("chunks", .list [.dict [("id", .str "report-aaaa-chunk-3"),
      ("text", .str "T")]])])]

/-- Claim C3 (code bug).  In the claimed scenario — a source entry
`{"id": "report-aaaa-chunk-3"}` whose parent report `report-aaaa` is
stored with a chunk of that id and text `"T"` — `_resolve_chunk_ids`
returns the entry unchanged with no `excerpt`: its guard
`CHUNK_ID_RE = ^chunk-[0-9a-fA-F-]+$` rejects every id of the form
`report-<hex>-chunk-<i>` that `store_report` actually generates, so the
prefix-derivation/look-up/attach machinery (and the spec's "Late chunk
resolution" property) is unreachable for real stored reports. -/
theorem c3_resolution_dead :
    chunkIdMatch "report-aaaa-chunk-3" = false ∧
    resolveChunkIds c3Store [.dict [("id", .str "report-aaaa-chunk-3")]] =
      [.dict [("id", .str "report-aaaa-chunk-3")]] ∧
    containsKey [("id", PyVal.str "report-aaaa-chunk-3")] "excerpt" = false := by
  refine ⟨by decide, rfl, by decide⟩

/-- Extract the strings of a list, or `none` if any element is not one. -/
def strListOf : List PyVal → Option (List String)
  | [] => some []
  | .str s :: rest => (strListOf rest).map (s :: ·)
  | _ => Option.none

/-- Python `"\n".join(xs)` on arbitrary values: `TypeError` unless every
element is a string. -/
def pyJoinNLStrict (xs : List PyVal) : Except String String :=
  match strListOf xs with
  | some l => .ok (joinNL l)
  | Option.none => .error "TypeError"

/-- Python `sep.join` for a general separator. -/
def joinSep (sep : String) : List String → String
  | [] => ""
  | [s] => s
  | s :: t :: rest => s ++ sep ++ joinSep sep (t :: rest)

/-- `body.split("\n\n")`: plain (non-regex) split on the two-newline
separator, left to right, non-overlapping. -/
def splitNN : List Char → List Char → List (List Char)
  | acc, '\n' :: '\n' :: rest => acc.reverse :: splitNN [] rest
  | acc, c :: rest => splitNN (c :: acc) rest
  | acc, [] => [acc.reverse]

/-- The 800-character slicing fallback of `store_report`
(`for i in range(0, len(s), 800): s[i:i+800]`). -/
def sliceChunks : List Char → List (List Char)
  | [] => []
  | c :: rest => (c :: rest).take 800 :: sliceChunks ((c :: rest).drop 800)
termination_by cs => cs.length
decreasing_by simp; omega

/-- The chunk dicts `{"id": f"{rid}-chunk-{i}", "text": c}` built by
`store_report`. -/
def mkChunks (rid : String) (texts : List String) : List PyVal :=
  texts.enum.map (fun p =>
    PyVal.dict [("id", .str (rid ++ "-chunk-" ++ pyStrNat p.1)),
      ("text", .str p.2)])

/-- The report entry `store_report` inserts into `_REPORTS` (the
wall-clock `created_at` field is outside the embedding and omitted). -/
def mkEntry (rid : String) (sessionId : Option String) (report : PyVal)
    (texts : List String) : PyVal :=
  PyVal.dict [("report_id", .str rid),
    ("session_id", match sessionId with
      | some s => .str s
      | Option.none => .none),
    ("report", report),
    ("chunks", .list (mkChunks rid texts))]

/-- The `pieces`/`body` computation of `store_report`: gather the truthy
`executive_summary` / `key_insights` / `recommendations` values, joining
lists with newlines (a `TypeError` if such a list holds a non-string),
and join the pieces with blank lines. -/
def storeBody (kvs : List (String × PyVal)) : Except String String :=
  let step := fun (acc : Except String (List String)) (k : String) =>
    match acc with
    | .error e => .error e
    | .ok pieces =>
      let v := dgetv kvs k
      if truthy v then
        match v with
        | .list xs => (pyJoinNLStrict xs).map (fun s => pieces ++ [s])
        | w => .ok (pieces ++ [pyStr w])
      else .ok pieces
  (["executive_summary", "key_insights", "recommendations"].foldl
    step (.ok [])).map (joinSep "\n\n")

/-- The chunk texts of `store_report`: the stripped, non-empty blank-line
paragraphs of the body, with the 800-character slices of
`body or str(report)` as fallback when there are none. -/
def storeTexts (report : PyVal) (body : String) : List String :=
  let raw := ((splitNN [] body.toList).map
    (fun l => pyStrip (String.mk l))).filter (fun p => !p.isEmpty)
  if raw = [] then
    (sliceChunks (if body = "" then pyStr report else body).toList).map
      String.mk
  else raw

/-- `store_report` from `app/chat/session_manager.py`.  The fresh
`uuid4().hex` is the `hexid` parameter (an external source of
randomness); the session bookkeeping only touches `_SESSIONS` and is not
modelled; the unused `text` assignment at the top of the function is
kept because its string concatenation can raise. -/
def storeReport (hexid : String) (sessionId : Option String)
    (report : PyVal) (reports : List (String × PyVal)) :
    Except String (String × List (String × PyVal)) :=
  let rid := "report-" ++ hexid
  let textE : Except String Unit :=
    if truthy report then
      match report with
      | .dict kvs =>
        (match (dlookup kvs "executive_summary").getD (.str ""),
            (dlookup kvs "recommendations").getD (.str "") with
         | .str _, .str _ => .ok ()
         | _, _ => .error "TypeError")
      | _ => .error "AttributeError"
    else .ok ()
  match textE with
  | .error e => .error e
  | .ok _ =>
    match report with
    | .dict kvs =>
      (storeBody kvs).map (fun body =>
        (rid, dset reports rid
          (mkEntry rid sessionId report (storeTexts report body))))
    | _ =>
      .ok (rid, dset reports rid
        (mkEntry rid sessionId report (storeTexts report (pyStr report))))

theorem toList_ne_nil_of_ne_empty (s : String) (h : s ≠ "") :
    s.toList ≠ [] := by
  intro hx
  apply h
  apply String.ext
  rw [show s.toList = s.data from rfl] at hx
  rw [hx]

theorem sliceChunks_ne_nil (cs : List Char) (h : cs ≠ []) :
    sliceChunks cs ≠ [] := by
  cases cs with
  | nil => exact absurd rfl h
  | cons c rest => simp [sliceChunks]

theorem storeTexts_dict_ne_nil (kvs : List (String × PyVal)) (body : String) :
    storeTexts (.dict kvs) body ≠ [] := by
  rw [storeTexts]
  split
  · rename_i hraw
    simp only [ne_eq, List.map_eq_nil]
    apply sliceChunks_ne_nil
    split
    · exact toList_ne_nil_of_ne_empty _ (bracket_ne_empty _ _ _ rfl rfl)
    · rename_i hbody
      exact toList_ne_nil_of_ne_empty _ hbody
  · rename_i hraw
    exact hraw

theorem mkChunks_getElem (rid : String) (texts : List String) (i : Nat)
    (t : String) (h : texts[i]? = some t) :
    (mkChunks rid texts)[i]? =
      some (.dict [("id", .str (rid ++ "-chunk-" ++ pyStrNat i)),
        ("text", .str t)]) := by
  rw [mkChunks, List.getElem?_map, List.getElem?_enum, h]
  rfl

/-- Claim C10 (confirmed).  Whenever `store_report` succeeds on a
dict-shaped report it derives at least one chunk, the returned id is
`report-<hexid>` for the fresh `uuid4().hex`, every derived chunk is
`{"id": f"{rid}-chunk-{i}", "text": <i-th paragraph or slice>}`, and
`get_report` on the returned id yields exactly the stored entry holding
that report and that chunk list. -/
theorem c10_store_report_chunks (hexid : String) (sid : Option String)
    (kvs : List (String × PyVal)) (reports : List (String × PyVal))
    (out : String × List (String × PyVal))
    (hhex : hexid.toList.all (fun c => c.isDigit || ('a' ≤ c && c ≤ 'f')) = true)
    (hok : storeReport hexid sid (.dict kvs) reports = .ok out) :
    out.1 = "report-" ++ hexid ∧
    ∃ texts : List String, texts ≠ [] ∧
      getReport out.2 out.1 =
        .ok (mkEntry out.1 sid (PyVal.dict kvs) texts) ∧
      ∀ i t, texts[i]? = some t →
        (mkChunks out.1 texts)[i]? =
          some (PyVal.dict
            [("id", PyVal.str (out.1 ++ "-chunk-" ++ pyStrNat i)),
             ("text", PyVal.str t)]) := by
  rw [storeReport] at hok
  split at hok
  · cases hok
  · cases hb : storeBody kvs with
    | error e => rw [hb] at hok; cases hok
    | ok body =>
      rw [hb] at hok
      simp only [Except.map] at hok
      injection hok with hok
      subst hok
      refine ⟨rfl, storeTexts (.dict kvs) body,
        storeTexts_dict_ne_nil kvs body, ?_, ?_⟩
      · rw [getReport, dlookup_dset_self]
      · intro i t h
        exact mkChunks_getElem _ _ i t h

/-- The stored result of `store_report` on the concrete report
`{"executive_summary": "Hello"}` with uuid hex `ab12` and no session. -/
def c10Out : String × List (String × PyVal) :=
  ("report-ab12", [("report-ab12",
    mkEntry "report-ab12" Option.none
      (PyVal.dict [("executive_summary", PyVal.str "Hello")]) ["Hello"])])

/-- Claim C10 (witness).  The store theorem applied to the concrete report
`{"executive_summary": "Hello"}` with uuid hex `ab12`. -/
theorem c10_store_report_witness :
    c10Out.1 = "report-ab12" ∧
    ∃ texts : List String, texts ≠ [] ∧
      getReport c10Out.2 c10Out.1 =
        .ok (mkEntry c10Out.1 Option.none
          (PyVal.dict [("executive_summary", PyVal.str "Hello")]) texts) ∧
      ∀ i t, texts[i]? = some t →
        (mkChunks c10Out.1 texts)[i]? =
          some (PyVal.dict
            [("id", PyVal.str (c10Out.1 ++ "-chunk-" ++ pyStrNat i)),
             ("text", PyVal.str t)]) :=
  c10_store_report_chunks "ab12" Option.none
    [("executive_summary", PyVal.str "Hello")] [] c10Out
    (by decide) (by rfl)

/-! ### The research pipeline: `ResearchAgent.run`, the `run_pipeline`
tool wrapper, and the Celery worker `run_research_job` -/

/-- A Python exception: its `str(...)` form plus whether it is a
`TypeError` (the one case `ResearchAgent.run` singles out around the web
search). -/
structure PyExc where
  typeErr : Bool
  msg : String
deriving Repr, DecidableEq

/-- A LangChain `Document`: page text plus metadata dict. -/
structure Doc where
  page_content : String
  metadata : List (String × PyVal)

/-- The pydantic `FinalReport` object of `app/llm/prompts.py`. -/
structure FinalReportObj where
  title : String
  executive_summary : String
  key_insights : List String
  evidence : List PyVal
  confidence : String
  recommendations : List String
  sources : List PyVal

/-- `FinalReport.model_dump()`. -/
def modelDump (r : FinalReportObj) : List (String × PyVal) :=
  [("title", .str r.title),
   ("executive_summary", .str r.executive_summary),
   ("key_insights", .list (r.key_insights.map .str)),
   ("evidence", .list r.evidence),
   ("confidence", .str r.confidence),
   ("recommendations", .list (r.recommendations.map .str)),
   ("sources", .list r.sources)]

/-- An event published to Redis (the wall-clock `ts` field `_publish`
adds is outside the embedding). -/
def Pub : Type := List (String × PyVal)

/-- The external collaborators the eight pipeline tools call into.  Each
returns `Except PyExc` (an exception or a value). -/
structure Oracles where
  web : String → Nat → Except PyExc (List PyVal)
  fetch : PyVal → Except PyExc Doc
  pdf : String → Except PyExc (List Doc)
  splitEmbed : List Doc → Except PyExc (List (List (String × PyVal)))
  retrieve : String → Nat → Except PyExc (List Doc)
  summarize : String → List (String × PyVal) → Except PyExc String
  synthesize : String → List PyVal → List PyVal → Except PyExc String
  reportGen : String → List PyVal → List PyVal → Except PyExc FinalReportObj

/-- A `ToolTracer`: each hook either returns the events it publishes or
raises.  `on_progress` models the attribute the fallback path of
`tracer_progress` probes for (absent on `ToolTracer`/`RedisTracer`,
modelled as raising `AttributeError`). -/
structure TracerI where
  on_tool_start : String → PyVal → Except String (List Pub)
  on_tool_progress : String → PyVal → Except String (List Pub)
  on_tool_end : String → PyVal → Except String (List Pub)
  on_tool_error : String → String → Except String (List Pub)
  on_progress : String → PyVal → Except String (List Pub)

/-- A guarded hook call (`try: hook(...) except Exception: pass`). -/
def hookEvents (r : Except String (List Pub)) : List Pub :=
  match r with
  | .ok es => es
  | .error _ => []

/-- `dict.update`: fold the new bindings over the base dict. -/
def dictUpdate (base kvs : List (String × PyVal)) :
    List (String × PyVal) :=
  kvs.foldl (fun d p => dset d p.1 p.2) base

/-- Python `s[:1000]`-style truncation. -/
def pyTake (n : Nat) (s : String) : String :=
  String.mk (s.toList.take n)

/-- The `out_short` computation of `RedisTracer.on_tool_end`: keep
primitive str/int/bool payloads, render anything else as
`str(...)[:1000]`. -/
def outShort (out : PyVal) : PyVal :=
  match out with
  | .str s => .str s
  | .int n => .int n
  | .bool b => .bool b
  | v => .str (pyTake 1000 (pyStr v))

/-- The `RedisTracer` of `run_research_job`: every hook republishes one
JSON event (never raising; `_send` swallows), and there is no
`on_progress` attribute. -/
def redisTracer : TracerI where
  on_tool_start := fun n p =>
    .ok [[("type", .str "tool_start"), ("tool", .str n), ("input", p)]]
  on_tool_progress := fun n p =>
    .ok [match p with
      | .dict kvs =>
        dictUpdate [("type", .str "tool_progress"), ("tool", .str n)] kvs
      | v =>
        dset [("type", .str "tool_progress"), ("tool", .str n)]
          "msg" (.str (pyStr v))]
  on_tool_end := fun n out =>
    .ok [[("type", .str "tool_end"), ("tool", .str n),
      ("output", outShort out)]]
  on_tool_error := fun n e =>
    .ok [[("type", .str "tool_error"), ("tool", .str n),
      ("error", .str e)]]
  on_progress := fun _ _ => .error "AttributeError"

/-- `tracer_progress` from `ResearchAgent.run`: best-effort
`on_tool_progress("run_pipeline", {"step": name, **payload})`, falling
back to `on_progress` and swallowing every failure. -/
def tracerProgress (tr : Option TracerI) (step : String)
    (payload : List (String × PyVal)) : List Pub :=
  match tr with
  | Option.none => []
  | some t =>
    let p := PyVal.dict (dictUpdate [("step", .str step)] payload)
    match t.on_tool_progress "run_pipeline" p with
    | .ok es => es
    | .error _ => hookEvents (t.on_progress "run_pipeline" p)

/-- The fetch loop of `ResearchAgent.run` (lines 98–111): iterate the
first five search results, skip falsy urls, degrade each fetch failure
to skipping the document; `r.get("url")` on a non-dict search result
raises outside the try and aborts the run.  Returns the tracer events
and either the gathered documents or the uncaught exception. -/
def fetchLoop (o : Oracles) (tr : Option TracerI) :
    List PyVal → Nat → List Doc → List Pub × Except PyExc (List Doc)
  | [], _, docs => ([], .ok docs)
  | r :: rest, idx, docs =>
    match r with
    | .dict kvs =>
      let url := dgetv kvs "url"
      if truthy url then
        match o.fetch url with
        | .ok d =>
          let d2 : Doc :=
            { d with metadata := dset d.metadata "source_title" (dgetv kvs "title") }
          let evs := tracerProgress tr "fetched_url"
            [("url", url), ("index", .int (idx + 1)),
             ("fetched_docs", .int (docs.length + 1))]
          let res := fetchLoop o tr rest (idx + 1) (docs ++ [d2])
          (evs ++ res.1, res.2)
        | .error e =>
          let evs := tracerProgress tr "fetch_error"
            [("url", url), ("error", .str e.msg)]
          let res := fetchLoop o tr rest (idx + 1) docs
          (evs ++ res.1, res.2)
      else fetchLoop o tr rest (idx + 1) docs
    | _ => ([], .error { typeErr := false, msg := "AttributeError" })

/-- The PDF loop of `ResearchAgent.run` (lines 117–124): extend the
document list per path, degrading failures to skipping the path. -/
def pdfLoop (o : Oracles) (tr : Option TracerI) :
    List String → List Doc → List Doc × List Pub
  | [], docs => (docs, [])
  | p :: rest, docs =>
    match o.pdf p with
    | .ok pdocs =>
      let evs := tracerProgress tr "pdf_loaded"
        [("path", .str p), ("pages_loaded", .int pdocs.length)]
      let res := pdfLoop o tr rest (docs ++ pdocs)
      (res.1, evs ++ res.2)
    | .error e =>
      let evs := tracerProgress tr "pdf_load_error"
        [("path", .str p), ("error", .str e.msg)]
      let res := pdfLoop o tr rest docs
      (res.1, evs ++ res.2)

/-- The summarize loop of `ResearchAgent.run` (lines 159–173): one
summary record per retrieved document, with a failed summary degrading
to the empty string. -/
def summarizeLoop (o : Oracles) (tr : Option TracerI) :
    List Doc → Nat → List PyVal × List Pub
  | [], _ => ([], [])
  | r :: rest, idx =>
    let sres := match o.summarize r.page_content r.metadata with
      | .ok s => (s, ([] : List Pub))
      | .error e =>
        ("", tracerProgress tr "summarize_error"
          [("index", .int idx), ("error", .str e.msg)])
    let entry := PyVal.dict
      [("id", pyOr (dgetv r.metadata "_id") (dgetv r.metadata "id")),
       ("summary", .str sres.1), ("metadata", .dict r.metadata)]
    let evs2 := tracerProgress tr "summarized_chunk"
      [("index", .int (idx + 1)), ("summary_len", .int sres.1.length)]
    let res := summarizeLoop o tr rest (idx + 1)
    (entry :: res.1, sres.2 ++ evs2 ++ res.2)

/-- The tail of `ResearchAgent.run` after the web-search stage, shared
by its success and degraded branches. -/
def runRAAfterSearch (o : Oracles) (tr : Option TracerI) (query : String)
    (pdfPaths : List String) (topK : Nat) (webResults : List PyVal)
    (cbAcc : List (String × PyVal)) (pubAcc : List Pub) :
    List (String × PyVal) × List Pub × Except PyExc FinalReportObj :=
  let cb1 : List (String × PyVal) :=
    [("progress", .dict [("pct", .int 10),
      ("web_results", .int webResults.length)])]
  let p1 := tracerProgress tr "search_complete"
    [("count", .int webResults.length)]
  let cb2 : List (String × PyVal) :=
    [("step", .dict [("state", .str "fetching_urls")])]
  let p2 := tracerProgress tr "fetching_urls"
    [("to_fetch", .int (min webResults.length 5))]
  let fl := fetchLoop o tr (webResults.take 5) 0 []
  match fl.2 with
  | .error e => (cbAcc ++ cb1 ++ cb2, pubAcc ++ p1 ++ p2 ++ fl.1, .error e)
  | .ok docs0 =>
    let cb3 : List (String × PyVal) :=
      [("progress", .dict [("pct", .int 25),
        ("fetched_docs", .int docs0.length)])]
    let p3 := tracerProgress tr "fetch_complete" [("count", .int docs0.length)]
    let cb4 : List (String × PyVal) :=
      [("step", .dict [("state", .str "loading_pdfs")])]
    let p4 := tracerProgress tr "loading_pdfs"
      [("pdf_count", .int pdfPaths.length)]
    let pl := pdfLoop o tr pdfPaths docs0
    let docs := pl.1
    let cb5 : List (String × PyVal) :=
      [("progress", .dict [("pct", .int 35), ("docs_total", .int docs.length)])]
    let p5 := tracerProgress tr "pdfs_complete" [("docs_total", .int docs.length)]
    let cb6 : List (String × PyVal) :=
      [("step", .dict [("state", .str "indexing")])]
    let p6 := tracerProgress tr "indexing_start" [("docs", .int docs.length)]
    let records :=
      if docs.isEmpty then ([] : List (List (String × PyVal)))
      else
        match o.splitEmbed docs with
        | .ok recs => recs
        | .error _ => []
    let idxCb : List (String × PyVal) :=
      if docs.isEmpty then []
      else
        match o.splitEmbed docs with
        | .ok _ => []
        | .error e =>
          [("step", .dict [("state", .str "index_failed"),
            ("error", .str e.msg)])]
    let idxPub : List Pub :=
      if docs.isEmpty then
        tracerProgress tr "indexing_skipped" [("reason", .str "no_docs")]
      else
        match o.splitEmbed docs with
        | .ok recs =>
          tracerProgress tr "indexing_split_start" [("docs", .int docs.length)] ++
          tracerProgress tr "indexing_split_complete" [("indexed", .int recs.length)]
        | .error e =>
          tracerProgress tr "indexing_split_start" [("docs", .int docs.length)] ++
          tracerProgress tr "index_failed" [("error", .str e.msg)]
    let cb7 : List (String × PyVal) :=
      [("progress", .dict [("pct", .int 50),
        ("indexed_chunks", .int records.length)])]
    let p7 := tracerProgress tr "indexing_complete"
      [("indexed_chunks", .int records.length)]
    let cb8 : List (String × PyVal) :=
      [("step", .dict [("state", .str "retrieving")])]
    let p8 := tracerProgress tr "retrieving_start"
      [("query", .str query), ("top_k", .int topK)]
    let retrieved :=
      match o.retrieve query topK with
      | .ok ds => ds
      | .error _ => []
    let retPub : List Pub :=
      match o.retrieve query topK with
      | .ok ds => tracerProgress tr "retrieved" [("count", .int ds.length)]
      | .error e => tracerProgress tr "retrieve_error" [("error", .str e.msg)]
    let cb9 : List (String × PyVal) :=
      [("progress", .dict [("pct", .int 65), ("retrieved", .int retrieved.length)])]
    let cb10 : List (String × PyVal) :=
      [("step", .dict [("state", .str "summarizing")])]
    let p9 := tracerProgress tr "summarizing_start" [("chunks", .int retrieved.length)]
    let sl := summarizeLoop o tr retrieved 0
    let cb11 : List (String × PyVal) :=
      [("progress", .dict [("pct", .int 80), ("summaries", .int sl.1.length)])]
    let p10 := tracerProgress tr "summarizing_complete"
      [("summaries", .int sl.1.length)]
    let cb12 : List (String × PyVal) :=
      [("step", .dict [("state", .str "synthesizing")])]
    let p11 := tracerProgress tr "synthesizing_start"
      [("retrieved_count", .int retrieved.length)]
    let retrievedForSynth := retrieved.map (fun r => PyVal.dict
      [("id", pyOr (dgetv r.metadata "_id") (dgetv r.metadata "id")),
       ("text", .str r.page_content)])
    let synthText :=
      match o.synthesize query retrievedForSynth webResults with
      | .ok s => s
      | .error _ => ""
    let synPub : List Pub :=
      match o.synthesize query retrievedForSynth webResults with
      | .ok s => tracerProgress tr "synthesized" [("synth_len", .int s.length)]
      | .error e => tracerProgress tr "synthesize_error" [("error", .str e.msg)]
    let cb13 : List (String × PyVal) := [("progress", .dict [("pct", .int 90)])]
    let p12 := tracerProgress tr "synthesizing_complete" []
    let cb14 : List (String × PyVal) :=
      [("step", .dict [("state", .str "reporting")])]
    let p13 := tracerProgress tr "reporting_start" []
    let sourcesMetadata := records.map (fun rec => PyVal.dict
      [("id", dgetv rec "_id"), ("url", dgetv rec "source")])
    let syntheses := [PyVal.dict [("section", .str "main"), ("text", .str synthText)]]
    let rg := o.reportGen query syntheses sourcesMetadata
    let tailCb : List (String × PyVal) :=
      match rg with
      | .ok final =>
        [("progress", PyVal.dict [("pct", .int 100),
          ("report_title", .str final.title)])]
      | .error e =>
        [("step", PyVal.dict [("state", .str "report_failed"),
          ("error", .str e.msg)])]
    let tailPub : List Pub :=
      match rg with
      | .ok final =>
        tracerProgress tr "report_generated" [("title", .str final.title)] ++
          tracerProgress tr "done" [("report_title", .str final.title)]
      | .error e => tracerProgress tr "report_failed" [("error", .str e.msg)]
    (cbAcc ++ cb1 ++ cb2 ++ cb3 ++ cb4 ++ cb5 ++ cb6 ++ idxCb ++ cb7 ++
       cb8 ++ cb9 ++ cb10 ++ cb11 ++ cb12 ++ cb13 ++ cb14 ++ tailCb,
     pubAcc ++ p1 ++ p2 ++ fl.1 ++ p3 ++ p4 ++ pl.2 ++ p5 ++ p6 ++ idxPub ++
       p7 ++ p8 ++ retPub ++ p9 ++ sl.2 ++ p10 ++ p11 ++ synPub ++ p12 ++ p13 ++
       tailPub,
     rg)

/-- `ResearchAgent.run` from `app/services/research_agent.py`.  Returns
the `(type, payload)` pairs handed to `progress_cb` (`self._emit`
swallows callback failures, so the calls themselves are the observable),
the tracer-published events, and the result (`FinalReport` object or the
propagated exception).  A `TypeError` from the web search is re-raised
as `RuntimeError`; every other stage degrades as in the source. -/
def runRA (o : Oracles) (tr : Option TracerI) (query : String)
    (pdfPaths : List String) (topK : Nat) :
    List (String × PyVal) × List Pub × Except PyExc FinalReportObj :=
  let cb0 : List (String × PyVal) :=
    [("step", .dict [("state", .str "searching")])]
  let p0 := tracerProgress tr "searching" [("query", .str query)]
  match o.web query 5 with
  | .error e =>
    if e.typeErr then
      (cb0, p0, .error (PyExc.mk false
        ("WebSearchTool.run() failed. Did you instantiate the tool (WebSearchTool())? Original error: " ++ e.msg)))
    else
      runRAAfterSearch o tr query pdfPaths topK []
        (cb0 ++ [("step", .dict [("state", .str "search_failed"),
          ("error", .str e.msg)])])
        (p0 ++ tracerProgress tr "search_failed" [("error", .str e.msg)])
  | .ok webResults =>
    runRAAfterSearch o tr query pdfPaths topK webResults cb0 p0

/-- The `run_pipeline` tool of `app/services/agent_tools.py`: emits
guarded `tool_start` / `tool_progress` / `tool_end` (or `tool_error`)
hooks around `ResearchAgent.run`, dumps the report to a dict, and
re-raises pipeline failures.  `ResearchAgent` is constructed without a
`progress_cb`, so the `_emit` pairs go to a no-op callback (returned
here as the first component, unobserved by the worker). -/
def runPipelineTool (o : Oracles) (tr : Option TracerI) (query : String)
    (pdfPaths : List String) (ns : String) :
    List (String × PyVal) × List Pub ×
      Except PyExc (List (String × PyVal)) :=
  let startP := PyVal.dict [("query", .str query),
    ("pdf_paths", .list (pdfPaths.map .str)), ("namespace", .str ns)]
  let e1 := match tr with
    | some t => hookEvents (t.on_tool_start "run_pipeline" startP)
    | Option.none => []
  let e2 := match tr with
    | some t => hookEvents (t.on_tool_progress "run_pipeline"
        (.dict [("step", .str "starting"),
          ("msg", .str "initializing research agent")]))
    | Option.none => []
  let ra := runRA o tr query pdfPaths 6
  match ra.2.2 with
  | .ok rep =>
    let e3 := match tr with
      | some t => hookEvents (t.on_tool_progress "run_pipeline"
          (.dict [("step", .str "finished_pipeline"),
            ("msg", .str "pipeline completed")]))
      | Option.none => []
    let dumped := modelDump rep
    let e4 := match tr with
      | some t => hookEvents (t.on_tool_end "run_pipeline"
          (.dict [("status", .str "ok"), ("title", dgetv dumped "title")]))
      | Option.none => []
    (ra.1, e1 ++ e2 ++ ra.2.1 ++ e3 ++ e4, .ok dumped)
  | .error e =>
    let e5 := match tr with
      | some t => hookEvents (t.on_tool_error "run_pipeline" e.msg)
      | Option.none => []
    (ra.1, e1 ++ e2 ++ ra.2.1 ++ e5, .error e)

/-- The fixed events `run_research_job` publishes around the pipeline. -/
def pubStarted : Pub :=
  [("type", .str "step"), ("state", .str "started"),
   ("detail", .str "task started")]

/-- The `progress: 1` initialization event. -/
def pubInit : Pub :=
  [("type", .str "progress"), ("pct", .int 1),
   ("msg", .str "initializing pipeline")]

/-- The `progress: 100` completion event. -/
def pubComplete : Pub :=
  [("type", .str "progress"), ("pct", .int 100),
   ("msg", .str "pipeline complete")]

/-- The terminal `done` event carrying the report. -/
def pubDone (report : List (String × PyVal)) : Pub :=
  [("type", .str "done"), ("report", .dict report)]

/-- The terminal `error` event. -/
def pubError (msg : String) : Pub :=
  [("type", .str "error"), ("error", .str msg)]

/-- `run_research_job` from `app/tasks/worker_tasks.py`: attach the
`RedisTracer`, publish `started` and `progress: 1`, run the pipeline
(whose tracer events are all republished), then publish either
`progress: 100` plus the terminal `done` event, or the terminal `error`
event, re-raising the failure.  Returns the published sequence and the
task's result. -/
def runResearchJob (o : Oracles) (jobId query : String)
    (pdfPaths : List String) (ns : String) :
    List Pub × Except PyExc (List (String × PyVal)) :=
  let rp := runPipelineTool o (some redisTracer) query pdfPaths ns
  match rp.2.2 with
  | .ok report =>
    ([pubStarted, pubInit] ++ rp.2.1 ++ [pubComplete, pubDone report],
     .ok [("status", .str "ok"),
       ("report_id", pyOr (dgetv report "report_id") (dgetv report "id"))])
  | .error e =>
    ([pubStarted, pubInit] ++ rp.2.1 ++ [pubError e.msg], .error e)

/-! ### C4/C5: fatal report stage, degrading fetch stage -/

theorem fetchLoop_ok (o : Oracles) (tr : Option TracerI) :
    ∀ (rs : List PyVal) (idx : Nat) (docs : List Doc),
      (∀ r ∈ rs, isDictB r = true) →
      ∃ ds, (fetchLoop o tr rs idx docs).2 = .ok ds := by
  intro rs
  induction rs with
  | nil => intro idx docs _; exact ⟨docs, rfl⟩
  | cons r rest ih =>
    intro idx docs h
    have hr := h r (by simp)
    cases r with
    | dict kvs =>
      rw [fetchLoop]
      dsimp only
      split
      · cases hf : o.fetch (dgetv kvs "url") with
        | ok d =>
          obtain ⟨ds, hds⟩ := ih (idx + 1)
            (docs ++ [⟨d.page_content,
              dset d.metadata "source_title" (dgetv kvs "title")⟩])
            (fun x hx => h x (by simp [hx]))
          exact ⟨ds, by simp [hds]⟩
        | error e =>
          obtain ⟨ds, hds⟩ := ih (idx + 1) docs (fun x hx => h x (by simp [hx]))
          exact ⟨ds, by simp [hds]⟩
      · exact ih (idx + 1) docs (fun x hx => h x (by simp [hx]))
    | none => simp [isDictB] at hr
    | bool b => simp [isDictB] at hr
    | int n => simp [isDictB] at hr
    | str s => simp [isDictB] at hr
    | list xs => simp [isDictB] at hr

theorem fetchLoop_all_fail (o : Oracles) (tr : Option TracerI)
    (hf : ∀ u, ∃ e, o.fetch u = .error e) :
    ∀ (rs : List PyVal) (idx : Nat) (docs : List Doc),
      (∀ r ∈ rs, isDictB r = true) →
      (fetchLoop o tr rs idx docs).2 = .ok docs := by
  intro rs
  induction rs with
  | nil => intro idx docs _; rfl
  | cons r rest ih =>
    intro idx docs h
    have hr := h r (by simp)
    cases r with
    | dict kvs =>
      rw [fetchLoop]
      dsimp only
      split
      · obtain ⟨e, he⟩ := hf (dgetv kvs "url")
        rw [he]
        simp [ih (idx + 1) docs (fun x hx => h x (by simp [hx]))]
      · exact ih (idx + 1) docs (fun x hx => h x (by simp [hx]))
    | none => simp [isDictB] at hr
    | bool b => simp [isDictB] at hr
    | int n => simp [isDictB] at hr
    | str s => simp [isDictB] at hr
    | list xs => simp [isDictB] at hr

theorem runRAAfterSearch_result (o : Oracles) (tr : Option TracerI)
    (query : String) (pdfPaths : List String) (topK : Nat)
    (ws : List PyVal) (cbAcc : List (String × PyVal)) (pubAcc : List Pub)
    (ds : List Doc)
    (hds : (fetchLoop o tr (ws.take 5) 0 []).2 = .ok ds) :
    ∃ a b, (runRAAfterSearch o tr query pdfPaths topK ws cbAcc pubAcc).2.2 =
      o.reportGen query a b := by
  simp only [runRAAfterSearch]
  rw [hds]
  exact ⟨_, _, rfl⟩

theorem runRA_result (o : Oracles) (tr : Option TracerI) (query : String)
    (pdfPaths : List String) (topK : Nat) (rs : List PyVal)
    (hrs : o.web query 5 = .ok rs)
    (hdicts : ∀ r ∈ rs, isDictB r = true) :
    ∃ a b, (runRA o tr query pdfPaths topK).2.2 = o.reportGen query a b := by
  obtain ⟨ds, hds⟩ := fetchLoop_ok o tr (rs.take 5) 0 []
    (fun r hr => hdicts r (List.mem_of_mem_take hr))
  simp only [runRA]
  rw [hrs]
  exact runRAAfterSearch_result o tr query pdfPaths topK rs _ _ ds hds

theorem runPipelineTool_error (o : Oracles) (tr : Option TracerI)
    (query : String) (pdfPaths : List String) (ns : String) (exc : PyExc)
    (h : (runRA o tr query pdfPaths 6).2.2 = .error exc) :
    (runPipelineTool o tr query pdfPaths ns).2.2 = .error exc := by
  simp only [runPipelineTool]
  rw [h]

theorem getLast?_append_singleton {α : Type} (l : List α) (x : α) :
    (l ++ [x]).getLast? = some x := by
  rw [List.getLast?_append_cons]
  rfl

/-- Claim C4 (confirmed).  If the generate-report collaborator raises, the
orchestrator run terminates with exactly that exception (no report value
is produced), the worker task re-raises it, and the job's published
event sequence ends with the terminal `error` event.  The hypothesis on
the search collaborator is its §6 contract (a list of result dicts). -/
theorem c4_generate_report_fatal (o : Oracles) (tr : Option TracerI)
    (jobId query ns : String) (pdfPaths : List String) (exc : PyExc)
    (rs : List PyVal) (hrs : o.web query 5 = .ok rs)
    (hdicts : ∀ r ∈ rs, isDictB r = true)
    (hrg : ∀ a b c, o.reportGen a b c = .error exc) :
    (runRA o tr query pdfPaths 6).2.2 = .error exc ∧
    (runResearchJob o jobId query pdfPaths ns).2 = .error exc ∧
    (runResearchJob o jobId query pdfPaths ns).1.getLast? =
      some (pubError exc.msg) := by
  have h1 : (runRA o tr query pdfPaths 6).2.2 = .error exc := by
    obtain ⟨a, b, hab⟩ := runRA_result o tr query pdfPaths 6 rs hrs hdicts
    rw [hab, hrg]
  have h1r : (runRA o (some redisTracer) query pdfPaths 6).2.2 = .error exc := by
    obtain ⟨a, b, hab⟩ :=
      runRA_result o (some redisTracer) query pdfPaths 6 rs hrs hdicts
    rw [hab, hrg]
  have h2 : (runPipelineTool o (some redisTracer) query pdfPaths ns).2.2 =
      .error exc := runPipelineTool_error o _ query pdfPaths ns exc h1r
  refine ⟨h1, ?_, ?_⟩
  · simp only [runResearchJob]
    rw [h2]
  · simp only [runResearchJob]
    rw [h2]
    exact getLast?_append_singleton _ _

/-- Concrete collaborators whose report generator always raises `boom`
and whose fetch always fails. -/
def oFail : Oracles where
  web := fun _ _ => .ok [.dict [("title", .str "t"),
    ("url", .str "https://x.com"), ("snippet", .str "s")]]
  fetch := fun _ => .error ⟨false, "connection refused"⟩
  pdf := fun _ => .ok []
  splitEmbed := fun _ => .ok []
  retrieve := fun _ _ => .ok []
  summarize := fun _ _ => .ok ""
  synthesize := fun _ _ _ => .ok ""
  reportGen := fun _ _ _ => .error ⟨false, "boom"⟩

/-- Claim C4 (witness).  The fatal-stage theorem at concrete collaborators. -/
theorem c4_generate_report_fatal_witness :
    (runRA oFail Option.none "q" [] 6).2.2 = .error ⟨false, "boom"⟩ ∧
    (runResearchJob oFail "job" "q" [] "ns").2 = .error ⟨false, "boom"⟩ ∧
    (runResearchJob oFail "job" "q" [] "ns").1.getLast? =
      some (pubError (PyExc.mk false "boom").msg) :=
  c4_generate_report_fatal oFail Option.none "job" "q" "ns" [] ⟨false, "boom"⟩
    _ rfl (by intro r hr; simp at hr; rw [hr]; rfl)
    (fun _ _ _ => rfl)

/-- Claim C5 (confirmed).  When every fetch raises, the run does not
abort: the fetch stage degrades to zero documents (the orchestrator
emits the 25% progress callback with `fetched_docs = 0`) and the
pipeline still reaches the generate-report stage (it emits the
`reporting` step callback).  The hypothesis on the search collaborator
is its §6 contract (a list of result dicts). -/
theorem c5_fetch_failure_degrades (o : Oracles) (tr : Option TracerI)
    (query : String) (pdfPaths : List String) (rs : List PyVal)
    (hrs : o.web query 5 = .ok rs)
    (hdicts : ∀ r ∈ rs, isDictB r = true)
    (hf : ∀ u, ∃ e, o.fetch u = .error e) :
    ("progress", PyVal.dict [("pct", .int 25), ("fetched_docs", .int 0)]) ∈
      (runRA o tr query pdfPaths 6).1 ∧
    ("step", PyVal.dict [("state", PyVal.str "reporting")]) ∈
      (runRA o tr query pdfPaths 6).1 := by
  have hfl : (fetchLoop o tr (rs.take 5) 0 []).2 = .ok [] :=
    fetchLoop_all_fail o tr hf (rs.take 5) 0 []
      (fun r hr => hdicts r (List.mem_of_mem_take hr))
  simp only [runRA]
  rw [hrs]
  simp only [runRAAfterSearch]
  rw [hfl]
  constructor
  · simp
  · simp

/-- Claim C5 (witness).  The degradation theorem at concrete collaborators
whose fetch always raises. -/
theorem c5_fetch_failure_degrades_witness :
    ("progress", PyVal.dict [("pct", .int 25), ("fetched_docs", .int 0)]) ∈
      (runRA oFail Option.none "q" [] 6).1 ∧
    ("step", PyVal.dict [("state", PyVal.str "reporting")]) ∈
      (runRA oFail Option.none "q" [] 6).1 :=
  c5_fetch_failure_degrades oFail Option.none "q" [] _ rfl
    (by intro r hr; simp at hr; rw [hr]; rfl)
    (fun _ => ⟨⟨false, "connection refused"⟩, rfl⟩)

/-! ### C6: tracer failures never change a tool's return value -/

theorem fetchLoop_snd_tr (o : Oracles) (t1 t2 : Option TracerI) :
    ∀ (rs : List PyVal) (idx : Nat) (docs : List Doc),
      (fetchLoop o t1 rs idx docs).2 = (fetchLoop o t2 rs idx docs).2 := by
  intro rs
  induction rs with
  | nil => intro idx docs; rfl
  | cons r rest ih =>
    intro idx docs
    cases r with
    | dict kvs =>
      rw [fetchLoop, fetchLoop]
      dsimp only
      split
      · cases hf : o.fetch (dgetv kvs "url") with
        | ok d => simp [ih]
        | error e => simp [ih]
      · exact ih (idx + 1) docs
    | none => rfl
    | bool b => rfl
    | int n => rfl
    | str s => rfl
    | list xs => rfl

theorem pdfLoop_fst_tr (o : Oracles) (t1 t2 : Option TracerI) :
    ∀ (ps : List String) (docs : List Doc),
      (pdfLoop o t1 ps docs).1 = (pdfLoop o t2 ps docs).1 := by
  intro ps
  induction ps with
  | nil => intro docs; rfl
  | cons p rest ih =>
    intro docs
    rw [pdfLoop, pdfLoop]
    cases hp : o.pdf p with
    | ok pdocs => simp [ih]
    | error e => simp [ih]

theorem summarizeLoop_fst_tr (o : Oracles) (t1 t2 : Option TracerI) :
    ∀ (ds : List Doc) (i : Nat),
      (summarizeLoop o t1 ds i).1 = (summarizeLoop o t2 ds i).1 := by
  intro ds
  induction ds with
  | nil => intro i; rfl
  | cons r rest ih =>
    intro i
    rw [summarizeLoop, summarizeLoop]
    cases hs : o.summarize r.page_content r.metadata with
    | ok s => simp [ih]
    | error e => simp [ih]

theorem runRAAfterSearch_res_tr (o : Oracles) (t1 t2 : Option TracerI)
    (query : String) (pdfPaths : List String) (topK : Nat)
    (ws : List PyVal) (cb1 cb2 : List (String × PyVal)) (pub1 pub2 : List Pub) :
    (runRAAfterSearch o t1 query pdfPaths topK ws cb1 pub1).2.2 =
      (runRAAfterSearch o t2 query pdfPaths topK ws cb2 pub2).2.2 := by
  simp only [runRAAfterSearch]
  have hfl := fetchLoop_snd_tr o t1 t2 (ws.take 5) 0 []
  cases h1 : (fetchLoop o t1 (ws.take 5) 0 []).2 with
  | error e =>
    rw [h1] at hfl
    rw [← hfl]
  | ok ds =>
    rw [h1] at hfl
    rw [← hfl]
    dsimp only
    have hpl := pdfLoop_fst_tr o t1 t2 pdfPaths ds
    rw [hpl]

theorem runRA_res_tr (o : Oracles) (t1 t2 : Option TracerI)
    (query : String) (pdfPaths : List String) (topK : Nat) :
    (runRA o t1 query pdfPaths topK).2.2 =
      (runRA o t2 query pdfPaths topK).2.2 := by
  simp only [runRA]
  cases hw : o.web query 5 with
  | ok rs => exact runRAAfterSearch_res_tr o t1 t2 query pdfPaths topK rs _ _ _ _
  | error e =>
    dsimp only
    split
    · rfl
    · exact runRAAfterSearch_res_tr o t1 t2 query pdfPaths topK [] _ _ _ _

/-- Claim C6 (confirmed).  Tracer hooks are fire-and-forget: the value
`run_pipeline` returns to its caller is exactly the value it returns
with no tracer at all, for every tracer — including one whose every
hook (`tool_start`, `tool_progress`, `tool_end`, `tool_error`) raises.
Hook exceptions are swallowed by the guarded calls and never abort the
tool or change its result. -/
theorem c6_tracer_fire_and_forget (o : Oracles) (query ns : String)
    (pdfPaths : List String) (t : TracerI) :
    (runPipelineTool o (some t) query pdfPaths ns).2.2 =
      (runPipelineTool o Option.none query pdfPaths ns).2.2 := by
  simp only [runPipelineTool]
  have h := runRA_res_tr o (some t) Option.none query pdfPaths 6
  cases h1 : (runRA o (some t) query pdfPaths 6).2.2 with
  | ok rep =>
    rw [h1] at h
    rw [← h]
  | error e =>
    rw [h1] at h
    rw [← h]

/-! ### C9: published event protocol of `run_research_job` -/

/-- Whether a published event has `type: progress`. -/
def isProgress (p : Pub) : Bool :=
  match dgetv p "type" with
  | .str s => s == "progress"
  | _ => false

/-- The `pct` field of a published event (`None` when absent). -/
def pubPct (p : Pub) : PyVal := dgetv p "pct"

/-- No event of the list is a `progress` event. -/
def NoProg (l : List Pub) : Prop := ∀ p ∈ l, isProgress p = false

theorem noProg_nil : NoProg [] := fun p hp => absurd hp (List.not_mem_nil p)

theorem noProg_append {a b : List Pub} (ha : NoProg a) (hb : NoProg b) :
    NoProg (a ++ b) := by
  intro p hp
  rcases List.mem_append.mp hp with h | h
  · exact ha p h
  · exact hb p h

theorem mem_dset_keys (d : List (String × PyVal)) (key k : String) (v : PyVal)
    (hd : ∀ q ∈ d, q.1 ≠ k) (hkey : key ≠ k) :
    ∀ q ∈ dset d key v, q.1 ≠ k := by
  intro q hq
  unfold dset at hq
  by_cases hc : containsKey d key
  · rw [if_pos hc] at hq
    obtain ⟨r, hr, hmap⟩ := List.mem_map.mp hq
    unfold updEntry at hmap
    by_cases h : r.1 = key
    · rw [if_pos h] at hmap; rw [← hmap]; exact hkey
    · rw [if_neg h] at hmap; subst hmap; exact hd r hr
  · rw [if_neg hc] at hq
    rcases List.mem_append.mp hq with h | h
    · exact hd q h
    · rcases List.mem_singleton.mp h with rfl
      exact hkey

theorem mem_dictUpdate_keys (base kvs : List (String × PyVal)) (k : String)
    (hb : ∀ q ∈ base, q.1 ≠ k) (hk : ∀ q ∈ kvs, q.1 ≠ k) :
    ∀ q ∈ dictUpdate base kvs, q.1 ≠ k := by
  induction kvs generalizing base with
  | nil => exact hb
  | cons a rest ih =>
    have ha : a.1 ≠ k := hk a (List.mem_cons_self a rest)
    have hrest : ∀ q ∈ rest, q.1 ≠ k := fun q hq => hk q (List.mem_cons_of_mem a hq)
    exact ih (dset base a.1 a.2) (mem_dset_keys base a.1 k a.2 hb ha) hrest

theorem dgetv_dictUpdate_no_key (base kvs : List (String × PyVal)) (k : String)
    (hk : ∀ q ∈ kvs, q.1 ≠ k) :
    dgetv (dictUpdate base kvs) k = dgetv base k := by
  induction kvs generalizing base with
  | nil => rfl
  | cons a rest ih =>
    have ha : a.1 ≠ k := hk a (List.mem_cons_self a rest)
    have hrest : ∀ q ∈ rest, q.1 ≠ k := fun q hq => hk q (List.mem_cons_of_mem a hq)
    show dgetv (dictUpdate (dset base a.1 a.2) rest) k = dgetv base k
    rw [ih (dset base a.1 a.2) hrest]
    exact dgetv_dset_ne base a.1 k a.2 ha

theorem noProg_of_type_ne (p : Pub) (s : String)
    (h : dgetv p "type" = .str s) (hs : ¬s = "progress") :
    isProgress p = false := by
  unfold isProgress
  rw [h]
  simp [hs]

theorem keys_ne_zero (t : String) :
    ∀ q ∈ ([] : List (String × PyVal)), q.1 ≠ t :=
  fun q hq => absurd hq (List.not_mem_nil q)

theorem keys_ne_one (k1 : String) (v1 : PyVal) (t : String) (h1 : k1 ≠ t) :
    ∀ q ∈ [(k1, v1)], q.1 ≠ t := by
  intro q hq
  rcases List.mem_singleton.mp hq with rfl
  exact h1

theorem keys_ne_two (k1 k2 : String) (v1 v2 : PyVal) (t : String)
    (h1 : k1 ≠ t) (h2 : k2 ≠ t) :
    ∀ q ∈ [(k1, v1), (k2, v2)], q.1 ≠ t := by
  intro q hq
  rcases List.mem_cons.mp hq with rfl | hq
  · exact h1
  · rcases List.mem_singleton.mp hq with rfl
    exact h2

theorem keys_ne_three (k1 k2 k3 : String) (v1 v2 v3 : PyVal) (t : String)
    (h1 : k1 ≠ t) (h2 : k2 ≠ t) (h3 : k3 ≠ t) :
    ∀ q ∈ [(k1, v1), (k2, v2), (k3, v3)], q.1 ≠ t := by
  intro q hq
  rcases List.mem_cons.mp hq with rfl | hq
  · exact h1
  · rcases List.mem_cons.mp hq with rfl | hq
    · exact h2
    · rcases List.mem_singleton.mp hq with rfl
      exact h3

theorem noProg_tracerProgress_redis (step : String)
    (payload : List (String × PyVal))
    (hp : ∀ q ∈ payload, q.1 ≠ "type") :
    NoProg (tracerProgress (some redisTracer) step payload) := by
  have he : tracerProgress (some redisTracer) step payload =
      [dictUpdate [("type", .str "tool_progress"), ("tool", .str "run_pipeline")]
        (dictUpdate [("step", .str step)] payload)] := rfl
  intro p hpp
  rw [he] at hpp
  rcases List.mem_singleton.mp hpp with rfl
  have hkeys : ∀ q ∈ dictUpdate [("step", PyVal.str step)] payload, q.1 ≠ "type" :=
    mem_dictUpdate_keys _ payload "type"
      (keys_ne_one "step" (PyVal.str step) "type" (by decide)) hp
  refine noProg_of_type_ne _ "tool_progress" ?_ (by decide)
  rw [dgetv_dictUpdate_no_key _ _ _ hkeys]
  rfl

theorem noProg_singleton_cons_type (s : String) (rest : List (String × PyVal))
    (hs : ¬s = "progress") :
    NoProg [("type", PyVal.str s) :: rest] := by
  intro p hp
  rcases List.mem_singleton.mp hp with rfl
  exact noProg_of_type_ne _ s rfl hs

theorem noProg_fetchLoop (o : Oracles) :
    ∀ (rs : List PyVal) (idx : Nat) (docs : List Doc),
      NoProg (fetchLoop o (some redisTracer) rs idx docs).1 := by
  intro rs
  induction rs with
  | nil => intro idx docs; exact noProg_nil
  | cons r rest ih =>
    intro idx docs
    cases r with
    | dict kvs =>
      rw [fetchLoop]
      dsimp only
      split
      · cases hf : o.fetch (dgetv kvs "url") with
        | ok d =>
          dsimp only
          exact noProg_append
            (noProg_tracerProgress_redis _ _
              (keys_ne_three _ _ _ _ _ _ _ (by decide) (by decide) (by decide)))
            (ih _ _)
        | error e =>
          dsimp only
          exact noProg_append
            (noProg_tracerProgress_redis _ _
              (keys_ne_two _ _ _ _ _ (by decide) (by decide)))
            (ih _ _)
      · exact ih _ _
    | none => exact noProg_nil
    | bool b => exact noProg_nil
    | int n => exact noProg_nil
    | str s => exact noProg_nil
    | list xs => exact noProg_nil

theorem noProg_pdfLoop (o : Oracles) :
    ∀ (ps : List String) (docs : List Doc),
      NoProg (pdfLoop o (some redisTracer) ps docs).2 := by
  intro ps
  induction ps with
  | nil => intro docs; exact noProg_nil
  | cons p rest ih =>
    intro docs
    rw [pdfLoop]
    cases hp : o.pdf p with
    | ok pdocs =>
      dsimp only
      exact noProg_append
        (noProg_tracerProgress_redis _ _
          (keys_ne_two _ _ _ _ _ (by decide) (by decide)))
        (ih _)
    | error e =>
      dsimp only
      exact noProg_append
        (noProg_tracerProgress_redis _ _
          (keys_ne_two _ _ _ _ _ (by decide) (by decide)))
        (ih _)

theorem noProg_summarizeLoop (o : Oracles) :
    ∀ (ds : List Doc) (i : Nat),
      NoProg (summarizeLoop o (some redisTracer) ds i).2 := by
  intro ds
  induction ds with
  | nil => intro i; exact noProg_nil
  | cons r rest ih =>
    intro i
    rw [summarizeLoop]
    cases hs : o.summarize r.page_content r.metadata with
    | ok s =>
      dsimp only
      exact noProg_append
        (noProg_append noProg_nil
          (noProg_tracerProgress_redis _ _
            (keys_ne_two _ _ _ _ _ (by decide) (by decide))))
        (ih _)
    | error e =>
      dsimp only
      exact noProg_append
        (noProg_append
          (noProg_tracerProgress_redis _ _
            (keys_ne_two _ _ _ _ _ (by decide) (by decide)))
          (noProg_tracerProgress_redis _ _
            (keys_ne_two _ _ _ _ _ (by decide) (by decide))))
        (ih _)

theorem noProg_afterSearch (o : Oracles) (query : String)
    (pdfPaths : List String) (topK : Nat) (ws : List PyVal)
    (cbAcc : List (String × PyVal)) (pubAcc : List Pub)
    (h : NoProg pubAcc) :
    NoProg (runRAAfterSearch o (some redisTracer) query pdfPaths topK
      ws cbAcc pubAcc).2.1 := by
  simp only [runRAAfterSearch]
  cases hfl : (fetchLoop o (some redisTracer) (ws.take 5) 0 []).2
  all_goals
    (dsimp only;
     repeat' (first
       | apply noProg_append
       | split);
     all_goals (first
       | exact h
       | exact noProg_fetchLoop o _ _ _
       | exact noProg_pdfLoop o _ _
       | exact noProg_summarizeLoop o _ _
       | exact noProg_tracerProgress_redis _ _ (keys_ne_zero _)
       | exact noProg_tracerProgress_redis _ _ (keys_ne_one _ _ _ (by decide))
       | exact noProg_tracerProgress_redis _ _
           (keys_ne_two _ _ _ _ _ (by decide) (by decide))
       | exact noProg_tracerProgress_redis _ _
           (keys_ne_three _ _ _ _ _ _ _ (by decide) (by decide) (by decide))))

theorem noProg_runRA (o : Oracles) (query : String)
    (pdfPaths : List String) (topK : Nat) :
    NoProg (runRA o (some redisTracer) query pdfPaths topK).2.1 := by
  simp only [runRA]
  cases hw : o.web query 5 with
  | ok rs =>
    dsimp only
    exact noProg_afterSearch o query pdfPaths topK rs _ _
      (noProg_tracerProgress_redis _ _ (keys_ne_one _ _ _ (by decide)))
  | error e =>
    dsimp only
    split
    · dsimp only
      exact noProg_tracerProgress_redis _ _ (keys_ne_one _ _ _ (by decide))
    · exact noProg_afterSearch o query pdfPaths topK [] _ _
        (noProg_append
          (noProg_tracerProgress_redis _ _ (keys_ne_one _ _ _ (by decide)))
          (noProg_tracerProgress_redis _ _ (keys_ne_one _ _ _ (by decide))))

theorem noProg_runPipelineTool (o : Oracles) (query : String)
    (pdfPaths : List String) (ns : String) :
    NoProg (runPipelineTool o (some redisTracer) query pdfPaths ns).2.1 := by
  simp only [runPipelineTool]
  cases hra : (runRA o (some redisTracer) query pdfPaths 6).2.2
  all_goals
    (dsimp only;
     repeat' apply noProg_append;
     all_goals (first
       | exact noProg_runRA o query pdfPaths 6
       | exact noProg_singleton_cons_type _ _ (by decide)))

/-- A concrete successful collaborator set for the job-protocol witness. -/
def c9Report : FinalReportObj :=
  { title := "Acme Robotics: market scan"
    executive_summary := "Summary."
    key_insights := ["insight"]
    evidence := []
    confidence := "medium"
    recommendations := ["recommend"]
    sources := [] }

/-- Collaborators for which the whole job succeeds: the web search returns
no results, there are no PDFs, and report generation succeeds. -/
def c9Oracles : Oracles where
  web := fun _ _ => .ok []
  fetch := fun _ => .error (PyExc.mk false "offline")
  pdf := fun _ => .error (PyExc.mk false "offline")
  splitEmbed := fun _ => .ok []
  retrieve := fun _ _ => .ok []
  summarize := fun _ _ => .ok ""
  synthesize := fun _ _ _ => .ok "synthesis"
  reportGen := fun _ _ _ => .ok c9Report

/-- Claim C9 (confirmed).  The event sequence `run_research_job` publishes
always begins with the `step: started` event followed by the `progress:
1` initializing event; the `pct` values of its `type: progress` events
form a monotonically non-decreasing sequence drawn from the fixed design
checkpoints; and on success it ends with the `progress: 100` event
followed by the terminal `done` event carrying the report.  (Because the
worker constructs `ResearchAgent` without a `progress_cb`, the
intermediate checkpoint percentages go to a no-op callback and the
published `progress` events are exactly `pct 1` and `pct 100`; every
tracer-republished pipeline event has `type: tool_progress`, not
`progress`.) -/
theorem c9_job_event_protocol (o : Oracles) (jobId query : String)
    (pdfPaths : List String) (ns : String) :
    (runResearchJob o jobId query pdfPaths ns).1.take 2 = [pubStarted, pubInit] ∧
    (∃ pcts : List Int,
      ((runResearchJob o jobId query pdfPaths ns).1.filter isProgress).map pubPct
          = pcts.map PyVal.int ∧
        pcts.Chain' (fun a b => a ≤ b) ∧
        ∀ x ∈ pcts, x ∈ ([1, 10, 25, 35, 50, 65, 80, 90, 100] : List Int)) ∧
    ∀ rep : List (String × PyVal),
      (runPipelineTool o (some redisTracer) query pdfPaths ns).2.2 = .ok rep →
      ∃ mid, (runResearchJob o jobId query pdfPaths ns).1
          = [pubStarted, pubInit] ++ mid ++ [pubComplete, pubDone rep] ∧
        ((runResearchJob o jobId query pdfPaths ns).1.filter isProgress).map pubPct
          = [PyVal.int 1, PyVal.int 100] := by
  have hmid : NoProg (runPipelineTool o (some redisTracer) query pdfPaths ns).2.1 :=
    noProg_runPipelineTool o query pdfPaths ns
  have hmidnil : List.filter isProgress
      (runPipelineTool o (some redisTracer) query pdfPaths ns).2.1 = [] := by
    rw [List.filter_eq_nil_iff]
    intro p hp
    simp [hmid p hp]
  simp only [runResearchJob]
  cases hrp : (runPipelineTool o (some redisTracer) query pdfPaths ns).2.2 with
  | ok rep =>
    dsimp only
    have hfilter :
        (([pubStarted, pubInit] ++
            (runPipelineTool o (some redisTracer) query pdfPaths ns).2.1 ++
            [pubComplete, pubDone rep]).filter isProgress).map pubPct
          = [PyVal.int 1, PyVal.int 100] := by
      rw [List.filter_append, List.filter_append, hmidnil]
      rfl
    refine ⟨rfl, ⟨[1, 100], hfilter, by simp, by decide⟩, ?_⟩
    intro rep2 hrep2
    have hr : rep = rep2 := by
      injection hrep2
    subst hr
    exact ⟨_, rfl, hfilter⟩
  | error e =>
    dsimp only
    have hfilter :
        (([pubStarted, pubInit] ++
            (runPipelineTool o (some redisTracer) query pdfPaths ns).2.1 ++
            [pubError e.msg]).filter isProgress).map pubPct
          = [PyVal.int 1] := by
      rw [List.filter_append, List.filter_append, hmidnil]
      rfl
    refine ⟨rfl, ⟨[1], hfilter, by simp, by decide⟩, ?_⟩
    intro rep2 hrep2
    exact Except.noConfusion hrep2

/-- Claim C9 (witness).  The protocol theorem applied to the concrete
successful collaborators: the run publishes `started`, `progress: 1`,
the tracer events, then `progress: 100` and the terminal `done` event,
and its published progress percentages are exactly `1` then `100`. -/
theorem c9_job_event_protocol_witness :
    ∃ mid, (runResearchJob c9Oracles "job-1" "acme market" [] "ns").1
        = [pubStarted, pubInit] ++ mid ++
            [pubComplete, pubDone (modelDump c9Report)] ∧
      ((runResearchJob c9Oracles "job-1" "acme market" [] "ns").1.filter
          isProgress).map pubPct
        = [PyVal.int 1, PyVal.int 100] :=
  (c9_job_event_protocol c9Oracles "job-1" "acme market" [] "ns").2.2
    (modelDump c9Report) rfl

/-! ### C7: per-context isolation of the current-tracer binding -/

/-- A `contextvars.ContextVar` holding an `Optional[ToolTracer]`, made
explicit: one slot per execution context (thread / task), identified by
a natural number; tracers are likewise identified by numbers.  This is
the state behind `_current_tracer` in `app/services/tracer.py`. -/
def CtxState : Type := Nat → Option Nat

/-- `set_current_tracer(tracer)` executed in context `ctx`:
`ContextVar.set` rebinds the slot of the calling context only. -/
def setCurrentTracer (s : CtxState) (ctx : Nat) (v : Option Nat) : CtxState :=
  fun c => if c = ctx then v else s c

/-- `get_current_tracer()` executed in context `ctx`: `ContextVar.get`
reads the slot of the calling context. -/
def getCurrentTracer (s : CtxState) (ctx : Nat) : Option Nat := s ctx

/-- One step of an interleaving of concurrent pipeline runs: a run in
context `ctx` either binds a tracer (`set_current_tracer`) or has one of
its tools emit an event, which is delivered to whatever tracer
`get_current_tracer` returns in that context. -/
inductive TraceOp where
  | setTracer (ctx : Nat) (v : Option Nat) : TraceOp
  | emit (ctx : Nat) (ev : Nat) : TraceOp
deriving DecidableEq

/-- Replay an interleaving, collecting every delivery as
`(emitting context, receiving tracer, event)`; an emit in a context with
no bound tracer is dropped (tools skip tracing when
`get_current_tracer()` is `None`). -/
def runOps (s : CtxState) : List TraceOp → List (Nat × Nat × Nat)
  | [] => []
  | .setTracer c v :: rest => runOps (setCurrentTracer s c v) rest
  | .emit c ev :: rest =>
    match getCurrentTracer s c with
    | some t => (c, t, ev) :: runOps s rest
    | Option.none => runOps s rest

/-- The context-slot state after replaying an interleaving. -/
def runState (s : CtxState) : List TraceOp → CtxState
  | [] => s
  | .setTracer c v :: rest => runState (setCurrentTracer s c v) rest
  | .emit _ _ :: rest => runState s rest

/-- Whether a step avoids binding tracer `tA` in context `B` — true of
every step of run `B` itself when `B`'s own tracer differs from `tA`,
and of every step of any other run (a `ContextVar.set` elsewhere cannot
touch `B`'s slot). -/
def avoidsTracer (B tA : Nat) (op : TraceOp) : Bool :=
  match op with
  | .setTracer c v => !(c == B && v == some tA)
  | .emit _ _ => true

/-- Claim C7 (confirmed).  Tracer bindings are isolated per execution
context: in any interleaving of concurrent runs in which run `B` binds
its own tracer (never `tA`, run `A`'s tracer, with `A ≠ B` since each
run sets only its own context's slot) and `B`'s slot does not initially
hold `tA`, `get_current_tracer` in `B`'s context never returns `tA`, so
no event produced by `B`'s tools is ever delivered to `A`'s tracer. -/
theorem c7_tracer_isolation (s0 : CtxState) (ops : List TraceOp)
    (B tA : Nat)
    (hB : ops.all (avoidsTracer B tA) = true)
    (h0 : ¬s0 B = some tA) :
    (∀ d ∈ runOps s0 ops, d.1 = B → ¬d.2.1 = tA) ∧
      ¬getCurrentTracer (runState s0 ops) B = some tA := by
  induction ops generalizing s0 with
  | nil => exact ⟨fun d hd => absurd hd (List.not_mem_nil d), h0⟩
  | cons op rest ih =>
    rw [List.all_cons, Bool.and_eq_true] at hB
    obtain ⟨hop, hrest⟩ := hB
    cases op with
    | setTracer c v =>
      have h0n : ¬(setCurrentTracer s0 c v) B = some tA := by
        show ¬(if B = c then v else s0 B) = some tA
        by_cases hc : B = c
        · subst hc
          rw [if_pos rfl]
          intro hv
          unfold avoidsTracer at hop
          rw [hv] at hop
          simp at hop
        · rw [if_neg hc]
          exact h0
      exact ih (setCurrentTracer s0 c v) hrest h0n
    | emit c ev =>
      have h2 := ih s0 hrest h0
      show (∀ d ∈ runOps s0 (.emit c ev :: rest), d.1 = B → ¬d.2.1 = tA) ∧
        ¬getCurrentTracer (runState s0 (.emit c ev :: rest)) B = some tA
      rw [runOps, runState]
      cases hs : getCurrentTracer s0 c with
      | none => exact h2
      | some t =>
        refine ⟨?_, h2.2⟩
        intro d hd hdB
        rcases List.mem_cons.mp hd with rfl | hd
        · intro ht
          apply h0
          have hcB : c = B := hdB
          have htA : t = tA := ht
          rw [← hcB, ← htA]
          exact hs
        · exact h2.1 d hd hdB

/-- Claim C7 (witness).  A concrete interleaving: run `A` in context `0`
binds tracer `10`, run `B` in context `1` binds tracer `11`, both emit;
every delivery from context `1` goes to tracer `11`, never to `10`. -/
theorem c7_tracer_isolation_witness :
    (∀ d ∈ runOps (fun _ => Option.none)
        [TraceOp.setTracer 0 (some 10), TraceOp.setTracer 1 (some 11),
         TraceOp.emit 0 100, TraceOp.emit 1 200, TraceOp.emit 0 101],
        d.1 = 1 → ¬d.2.1 = 10) ∧
      ¬getCurrentTracer (runState (fun _ => Option.none)
        [TraceOp.setTracer 0 (some 10), TraceOp.setTracer 1 (some 11),
         TraceOp.emit 0 100, TraceOp.emit 1 200, TraceOp.emit 0 101]) 1
        = some 10 :=
  c7_tracer_isolation (fun _ => Option.none) _ 1 10 (by decide) (by simp)

end StartupResearcher
